import Mathlib

set_option maxRecDepth 8000
set_option maxHeartbeats 2000000

/-! Formal model of the restaurant reservation system (`app.py`,
    `discord_bot.py`, `delete_old_reservations.py`).

    Dates and times are stored by the source as SQLite TEXT values in the
    canonical forms 'YYYY-MM-DD' and 'HH:MM' (both are validated with
    `datetime.strptime` before they reach storage).  The model represents them
    by structured values and renders them through the formatting functions
    below; every comparison the source performs on such strings — SQLite
    BINARY collation in SQL `WHERE` clauses, Python `sorted()` — is modelled
    as code-point/byte order comparison of the rendered strings, which agree
    on ASCII text. -/

/-- Lexicographic code-point comparison of character lists: `charsLe a b` is
    true iff `a` precedes or equals `b`.  This is the order both SQLite's
    BINARY collation (memcmp of UTF-8 bytes) and Python string comparison
    (code points) give on the ASCII date/time strings compared by the
    source. -/
def charsLe : List Char → List Char → Bool
  | [], _ => true
  | _ :: _, [] => false
  | a :: as, b :: bs =>
    if a.toNat < b.toNat then true
    else if b.toNat < a.toNat then false
    else charsLe as bs

/-- Byte-order comparison of strings, see `charsLe`. -/
def strLe (a b : String) : Bool := charsLe a.data b.data

/-- Zero-padded two-digit rendering, as produced by `strftime('%m')`,
    `strftime('%d')`, `strftime('%H')`, `strftime('%M')` and by the
    `f"{day:02d}"` format in `discord_bot.py`. -/
def pad2 (n : Nat) : String := if n < 10 then "0" ++ toString n else toString n

/-- Zero-padded four-digit year rendering (`strftime('%Y')`). -/
def pad4 (n : Nat) : String :=
  if n < 10 then "000" ++ toString n
  else if n < 100 then "00" ++ toString n
  else if n < 1000 then "0" ++ toString n
  else toString n

/-- Calendar date as stored in the `fecha` column ('YYYY-MM-DD'). -/
structure Fecha where
  y : Nat
  m : Nat
  d : Nat
deriving DecidableEq

/-- Time of day as stored in the `hora` column ('HH:MM'). -/
structure Hora where
  h : Nat
  mi : Nat
deriving DecidableEq

/-- Wall-clock instant, as returned by `now()` (`datetime.now(TIMEZONE)` in
    `app.py`). -/
structure DateTime where
  fecha : Fecha
  hora : Hora
  sec : Nat
deriving DecidableEq

/-- Rendering of a date as the canonical SQLite TEXT form 'YYYY-MM-DD'. -/
def fmt_fecha (f : Fecha) : String := pad4 f.y ++ "-" ++ pad2 f.m ++ "-" ++ pad2 f.d

/-- Rendering of a time as the canonical form 'HH:MM'. -/
def fmt_hora (t : Hora) : String := pad2 t.h ++ ":" ++ pad2 t.mi

/-- Rendering of an instant as SQLite's `datetime(...)` normal form
    'YYYY-MM-DD HH:MM:SS', the shape of `datetime('now', 'localtime')`. -/
def fmt_datetime (t : DateTime) : String :=
  fmt_fecha t.fecha ++ " " ++ fmt_hora t.hora ++ ":" ++ pad2 t.sec

/-- Python `datetime.date` comparison (`fecha < today` in
    `is_booking_allowed`): numeric lexicographic order on (year, month,
    day). -/
def fecha_lt (a b : Fecha) : Bool :=
  if a.y < b.y then true
  else if b.y < a.y then false
  else if a.m < b.m then true
  else if b.m < a.m then false
  else decide (a.d < b.d)

/-- Row of the `reservations` table, fields exactly as created by
    `init_database` (app.py:98-125).  Note the schema has no `status`
    column. -/
structure Reservation where
  id : Nat
  nombre : String
  telefono : String
  personas : Int
  fecha : Fecha
  hora : Hora
  user_confirmed : Bool
  restaurant_confirmed : Bool
  cancelled : Bool
  cancelled_at : Option DateTime
  cancelled_by : Option String
  confirmation_token : String
  notes : String
deriving DecidableEq

/-- Row of the append-only `action_log` table (app.py:128-138). -/
structure ActionLogEntry where
  reservation_id : Nat
  action_type : String
  performed_by : String
  details : Option String
deriving DecidableEq

/-- The SQLite database state relevant to the modelled operations:
    `reservations`, `action_log` and `blocked_hours` tables, plus the
    AUTOINCREMENT counter for reservation ids.  (`discord_messages` and
    `contact_messages` are not read by any modelled operation.) -/
structure Db where
  reservations : List Reservation
  action_log : List ActionLogEntry
  blocked_hours : List (Fecha × Hora)
  next_id : Nat
deriving DecidableEq

/-- Model of `log_action` (app.py:348-356): appends one row to `action_log`.
    In the source this runs in its own connection and transaction, separate
    from the mutation that precedes it. -/
def log_action (db : Db) (reservation_id : Nat) (action_type performed_by : String)
    (details : Option String) : Db :=
  { db with action_log := db.action_log ++ [⟨reservation_id, action_type, performed_by, details⟩] }

/-- Notification side effect: one SMS dispatch.  `dest` is the recipient
    phone; `site` tags which `send_sms`/`notify_managers` call site in the
    source produced it (message bodies are presentation-only and are not
    modelled). -/
structure Notif where
  dest : String
  site : String
deriving DecidableEq

/-- Model of `notify_managers` (app.py:382-393): one SMS per configured
    manager phone. -/
def notify_managers (managers : List String) (site : String) : List Notif :=
  managers.map (fun p => ⟨p, site⟩)

/-- Model of `clean_phone_number` (app.py:274-279): drop every space, hyphen
    and parenthesis (Python `str.replace` removes all occurrences), then
    prepend '+' unless the result already starts with '+'. -/
def keep_phone_char (c : Char) : Bool :=
  !(decide (c = ' ') || decide (c = '-') || decide (c = '(') || decide (c = ')'))

/-- Model of `clean_phone_number`, see `keep_phone_char`. -/
def clean_phone_number (phone : String) : String :=
  let cleaned : List Char := phone.data.filter keep_phone_char
  if cleaned.head? = some '+' then ⟨cleaned⟩ else ⟨'+' :: cleaned⟩

/-- Model of `is_large_group` (app.py:270-272): party strictly above the
    threshold (`LARGE_GROUP_THRESHOLD`). -/
def is_large_group (threshold personas : Int) : Bool := decide (threshold < personas)

/-- Model of `get_blocked_hours_for_date` (app.py:358-367): the hours blocked
    for one date.  (The source orders the result by `hora`; every consumer
    only tests membership or takes a set difference, so the order is not
    modelled.) -/
def get_blocked_hours_for_date (db : Db) (fecha : Fecha) : List Hora :=
  (db.blocked_hours.filter (fun bh => decide (bh.1 = fecha))).map (·.2)

/-- Model of `is_hour_available` (app.py:377-380): an hour is "available" iff
    it is not in that date's blocked list.  Membership in the default slot
    template is not consulted. -/
def is_hour_available (db : Db) (fecha : Fecha) (hora : Hora) : Bool :=
  !(decide (hora ∈ get_blocked_hours_for_date db fecha))

/-- Order on times by their rendered 'HH:MM' strings: Python's
    `sorted()` over the hour strings. -/
def hora_le (a b : Hora) : Prop := strLe (fmt_hora a) (fmt_hora b) = true

instance : DecidableRel hora_le :=
  fun a b => inferInstanceAs (Decidable (strLe (fmt_hora a) (fmt_hora b) = true))

/-- Model of `get_available_hours_for_date` (app.py:370-374):
    `sorted(list(set(DEFAULT_HOURS) - set(blocked)))`.  The set difference is
    the deduplicated filter; the sort is by the 'HH:MM' strings. -/
def get_available_hours_for_date (default_hours : List Hora) (db : Db) (fecha : Fecha) :
    List Hora :=
  List.insertionSort hora_le
    ((default_hours.filter
        (fun h => !(decide (h ∈ get_blocked_hours_for_date db fecha)))).dedup)

/-- Model of `get_current_timeslot` (app.py:286-299). -/
def get_current_timeslot (now : DateTime) : String :=
  if now.hora.h < 12 then "before_morning"
  else if now.hora.h < 19 then "morning"
  else "evening"

/-- Model of `is_booking_allowed` (app.py:301-345), for well-formed
    'YYYY-MM-DD'/'HH:MM' inputs (malformed inputs raise in `strptime` and are
    turned into a validation failure by the handler's `except` clause, a path
    structured inputs cannot reach).  Checks, in source order: blocked hour,
    past date, same-day service-window rules; future dates are allowed. -/
def is_booking_allowed (db : Db) (now : DateTime) (fecha : Fecha) (hora : Hora) :
    Bool × String :=
  if !is_hour_available db fecha hora then (false, "Esta hora no está disponible")
  else
    let booking_timeslot := if hora.h < 19 then "morning" else "evening"
    if fecha_lt fecha now.fecha then (false, "No puedes reservar en una fecha pasada")
    else if fecha = now.fecha then
      let current_time := get_current_timeslot now
      if current_time = "before_morning" then (true, "")
      else if current_time = "morning" then
        if booking_timeslot = "morning" then
          (false, "Ya estamos sirviendo el almuerzo. Puedes reservar para esta noche o mañana")
        else (true, "")
      else (false, "Ya estamos sirviendo la cena. Puedes reservar a partir de mañana")
    else (true, "")

/-- Model of the `/api/available-hours` endpoint `api_available_hours`
    (app.py:535-574): availability per `get_available_hours_for_date`, with
    same-day pruning (before 19:00 only slots at hour ≥ 19 remain, from 19:00
    nothing remains) and empty result for past dates.  Returns the hour list
    and the `all_blocked` flag (`len(available) == 0`). -/
def api_available_hours (default_hours : List Hora) (db : Db) (now : DateTime)
    (fecha : Fecha) : List Hora × Bool :=
  let available := get_available_hours_for_date default_hours db fecha
  if fecha = now.fecha then
    if now.hora.h < 19 then
      let filtered := available.filter (fun h => decide (19 ≤ h.h))
      (filtered, filtered.isEmpty)
    else ([], true)
  else if fecha_lt fecha now.fecha then ([], true)
  else (available, available.isEmpty)

/-- Row predicate of the duplicate query in `create_reservation`
    (app.py:420-431): same canonicalized phone, `user_confirmed = 1`,
    `cancelled = 0`, and `date(fecha) >= date('now','localtime')` — a byte
    order comparison of 'YYYY-MM-DD' strings (`date()` maps a valid
    'YYYY-MM-DD' TEXT value to itself). -/
def duplicate_active_pred (clean : String) (today : Fecha) (r : Reservation) : Bool :=
  decide (r.telefono = clean) && r.user_confirmed && !r.cancelled &&
    strLe (fmt_fecha today) (fmt_fecha r.fecha)

/-- Row predicate of the `POST /confirm/<token>` query (app.py:780-786):
    token match, `user_confirmed = 0`, `cancelled = 0`, and
    `datetime(fecha || ' ' || hora) >= datetime('now','localtime')` — byte
    order on normalized 'YYYY-MM-DD HH:MM:SS' strings (SQLite's `datetime()`
    appends ':00' seconds to the 'YYYY-MM-DD HH:MM' concatenation). -/
def confirm_token_pred (token : String) (now : DateTime) (r : Reservation) : Bool :=
  decide (r.confirmation_token = token) && !r.user_confirmed && !r.cancelled &&
    strLe (fmt_datetime now) (fmt_fecha r.fecha ++ " " ++ fmt_hora r.hora ++ ":00")

/-- Row predicate of the `GET /cancel/<token>` query (app.py:954-959): token
    match, `cancelled = 0`, and
    `date(fecha || ' ' || hora) >= datetime('now','localtime')`.  `date()`
    truncates the concatenation to the ten-character 'YYYY-MM-DD' string,
    which SQLite then compares in byte order against the nineteen-character
    'YYYY-MM-DD HH:MM:SS' value of `datetime('now','localtime')`. -/
def cancel_token_pred (token : String) (now : DateTime) (r : Reservation) : Bool :=
  decide (r.confirmation_token = token) && !r.cancelled &&
    strLe (fmt_datetime now) (fmt_fecha r.fecha)

/-- Request body of the `/reservar` endpoint.  A field is `none` when absent
    from the JSON body; the handler also treats JSON-falsy present values
    (empty strings, the number 0) as missing. -/
structure CreateReq where
  nombre : Option String
  telefono : Option String
  personas : Option Int
  fecha : Option Fecha
  hora : Option Hora
  notes : Option String
deriving DecidableEq

/-- Typed outcome of `create_reservation`, one constructor per distinct
    return site of the handler. -/
inductive CreateRes where
  | missing_field (field : String)
  | duplicate (fecha : Fecha) (hora : Hora)
  | not_allowed (reason : String)
  | success (id : Nat) (large_group : Bool)
deriving DecidableEq

/-- Model of `create_reservation` (app.py:400-533).  In source order:
    required-field check; phone canonicalization; duplicate check (an active,
    user-confirmed reservation for the same cleaned phone with
    `date(fecha) >= date('now','localtime')`, a comparison of 'YYYY-MM-DD'
    strings); `is_booking_allowed`; INSERT with `user_confirmed = 0`,
    `restaurant_confirmed = 0` iff the party is large, and the fresh token;
    `log_action 'created'`; confirmation SMS to the cleaned phone. -/
def create_reservation (threshold : Int) (db : Db) (now : DateTime) (req : CreateReq)
    (token : String) : CreateRes × Db × List Notif :=
  match req.nombre with
  | none => (.missing_field "nombre", db, [])
  | some nombre =>
    if nombre = "" then (.missing_field "nombre", db, [])
    else
      match req.telefono with
      | none => (.missing_field "telefono", db, [])
      | some telefono =>
        if telefono = "" then (.missing_field "telefono", db, [])
        else
          match req.personas with
          | none => (.missing_field "personas", db, [])
          | some personas =>
            if personas = 0 then (.missing_field "personas", db, [])
            else
              match req.fecha with
              | none => (.missing_field "fecha", db, [])
              | some fecha =>
                match req.hora with
                | none => (.missing_field "hora", db, [])
                | some hora =>
                  let clean := clean_phone_number telefono
                  match db.reservations.find? (duplicate_active_pred clean now.fecha) with
                  | some r => (.duplicate r.fecha r.hora, db, [])
                  | none =>
                    let chk := is_booking_allowed db now fecha hora
                    if !chk.1 then (.not_allowed chk.2, db, [])
                    else
                      let large := is_large_group threshold personas
                      let row : Reservation :=
                        { id := db.next_id, nombre := nombre, telefono := clean,
                          personas := personas, fecha := fecha, hora := hora,
                          user_confirmed := false, restaurant_confirmed := !large,
                          cancelled := false, cancelled_at := none, cancelled_by := none,
                          confirmation_token := token, notes := req.notes.getD "" }
                      let db1 := { db with reservations := db.reservations ++ [row],
                                           next_id := db.next_id + 1 }
                      let db2 := log_action db1 row.id "created" "web_form"
                        (some ("Group size: " ++ toString personas ++ ", Auto-approved: " ++
                          (if large then "False" else "True")))
                      (.success row.id large, db2,
                        [⟨clean, if large then "create_sms_large" else "create_sms_small"⟩])

/-- Typed outcome of a `POST /confirm/<token>`. -/
inductive ConfirmRes where
  | invalid
  | success (large_group : Bool)
deriving DecidableEq

/-- Model of the POST branch of `confirm_reservation` (app.py:776-939).  The
    row must match the token with `user_confirmed = 0`, `cancelled = 0` and
    `datetime(fecha || ' ' || hora) >= datetime('now','localtime')` — a
    byte-order comparison of the normalized 'YYYY-MM-DD HH:MM:SS' strings
    (SQLite's `datetime()` appends ':00' seconds to a 'YYYY-MM-DD HH:MM'
    argument).  On a match: UPDATE `user_confirmed = 1` (committed at
    app.py:846-851), then `log_action 'user_confirmed'` in a separate
    transaction, then one SMS to the customer and one per manager phone.
    The middle component is the commit trace: the database state after each
    committed transaction, in order. -/
def confirm_reservation (threshold : Int) (managers : List String) (db : Db)
    (now : DateTime) (token : String) : ConfirmRes × List Db × List Notif :=
  match db.reservations.find? (confirm_token_pred token now) with
  | none => (.invalid, [], [])
  | some r =>
    let large := is_large_group threshold r.personas
    let db1 := { db with reservations := db.reservations.map (fun x =>
        if x.id = r.id then { x with user_confirmed := true } else x) }
    let db2 := log_action db1 r.id "user_confirmed" "customer" (some "Via SMS link")
    (.success large, [db1, db2],
      ⟨r.telefono, if large then "confirm_sms_large" else "confirm_sms_small"⟩ ::
        notify_managers managers "manager_new_reservation")

/-- Final database state after a `POST /confirm/<token>` (last committed
    state of the `confirm_reservation` trace). -/
def confirm_reservation_db (threshold : Int) (managers : List String) (db : Db)
    (now : DateTime) (token : String) : Db :=
  ((confirm_reservation threshold managers db now token).2.1).getLastD db

/-- Typed outcome of a `GET /cancel/<token>`. -/
inductive CancelRes where
  | invalid
  | success
deriving DecidableEq

/-- Model of `cancel_reservation` (app.py:945-1091), the customer
    cancellation link.  The row must match the token with `cancelled = 0` and
    `date(fecha || ' ' || hora) >= datetime('now', 'localtime')` — note the
    left side is truncated by `date()` to the ten-character 'YYYY-MM-DD'
    string while the right side is the nineteen-character
    'YYYY-MM-DD HH:MM:SS' string, and SQLite compares the two TEXT values in
    byte order.  On a match: UPDATE `cancelled = 1`,
    `cancelled_at = CURRENT_TIMESTAMP`, `cancelled_by = 'customer'`; then
    `log_action 'cancelled'`; then customer SMS and manager
    notifications. -/
def cancel_reservation (managers : List String) (db : Db) (now : DateTime)
    (token : String) : CancelRes × Db × List Notif :=
  match db.reservations.find? (cancel_token_pred token now) with
  | none => (.invalid, db, [])
  | some r =>
    let db1 := { db with reservations := db.reservations.map (fun x =>
        if x.id = r.id then
          { x with cancelled := true, cancelled_at := some now,
                   cancelled_by := some "customer" }
        else x) }
    let db2 := log_action db1 r.id "cancelled" "customer" (some "Via cancellation link")
    (.success, db2,
      ⟨r.telefono, "cancel_sms"⟩ :: notify_managers managers "manager_cancellation")

/-- Typed outcome of `POST /api/admin/cancel/<id>`. -/
inductive AdminCancelRes where
  | not_found
  | already_cancelled
  | success
deriving DecidableEq

/-- Model of `admin_cancel_reservation` (app.py:1479-1538): lookup by id
    (404 when absent, 400 when already cancelled), then UPDATE
    `cancelled = 1`, `cancelled_at = CURRENT_TIMESTAMP`,
    `cancelled_by = 'admin'`, `log_action 'cancelled'` with the given reason
    (default 'Cancelado desde panel admin'), and a customer SMS.  No date
    condition restricts which reservations the admin may cancel. -/
def admin_cancel_reservation (db : Db) (now : DateTime) (reservation_id : Nat)
    (reason : Option String) : AdminCancelRes × Db × List Notif :=
  match db.reservations.find? (fun r => decide (r.id = reservation_id)) with
  | none => (.not_found, db, [])
  | some r =>
    if r.cancelled then (.already_cancelled, db, [])
    else
      let db1 := { db with reservations := db.reservations.map (fun x =>
          if x.id = reservation_id then
            { x with cancelled := true, cancelled_at := some now,
                     cancelled_by := some "admin" }
          else x) }
      let db2 := log_action db1 reservation_id "cancelled" "admin"
        (some (reason.getD "Cancelado desde panel admin"))
      (.success, db2, [⟨r.telefono, "admin_cancel_sms"⟩])

/-- Typed outcome of `POST /api/admin/approve/<id>`. -/
inductive AdminApproveRes where
  | not_found
  | cancelled_rejection
  | already_approved
  | success
deriving DecidableEq

/-- Model of `admin_approve_reservation` (app.py:1541-1596): lookup by id,
    404 when absent, 400 when cancelled, 400 when already
    `restaurant_confirmed`; otherwise UPDATE `restaurant_confirmed = 1`,
    `log_action 'restaurant_confirmed'`, customer SMS. -/
def admin_approve_reservation (db : Db) (reservation_id : Nat) :
    AdminApproveRes × Db × List Notif :=
  match db.reservations.find? (fun r => decide (r.id = reservation_id)) with
  | none => (.not_found, db, [])
  | some r =>
    if r.cancelled then (.cancelled_rejection, db, [])
    else if r.restaurant_confirmed then (.already_approved, db, [])
    else
      let db1 := { db with reservations := db.reservations.map (fun x =>
          if x.id = reservation_id then { x with restaurant_confirmed := true } else x) }
      let db2 := log_action db1 reservation_id "restaurant_confirmed" "admin"
        (some "Aprobado desde panel admin")
      (.success, db2, [⟨r.telefono, "approve_sms"⟩])

/-- Outcome of the dashboard approve affordance `ConfirmButton.callback`
    (discord_bot.py:137-196). -/
inductive DiscordConfirmRes where
  | not_found
  | already_confirmed
  | sql_error_no_status_column
deriving DecidableEq

/-- Model of `ConfirmButton.callback` (discord_bot.py:137-196), the approve
    button on the pending-approval dashboard.  It looks the reservation up by
    id, rejects when absent or already `restaurant_confirmed`, and — with no
    check of `cancelled` — executes
    `UPDATE reservations SET restaurant_confirmed = 1, status = 'confirmed'`.
    The `reservations` schema created by `init_database` (app.py:98-125) has
    no `status` column, so sqlite3 raises `OperationalError` at that
    statement: nothing is written, no audit row is appended, no SMS is sent,
    and the exception escapes the callback (there is no try/except around
    it). -/
def discord_confirm_callback (db : Db) (reservation_id : Nat) :
    DiscordConfirmRes × Db × List Notif :=
  match db.reservations.find? (fun r => decide (r.id = reservation_id)) with
  | none => (.not_found, db, [])
  | some r =>
    if r.restaurant_confirmed then (.already_confirmed, db, [])
    else (.sql_error_no_status_column, db, [])

/-- Prefix test on character lists (used to locate substring occurrences). -/
def isPrefOf : List Char → List Char → Bool
  | [], _ => true
  | _ :: _, [] => false
  | a :: as, b :: bs => decide (a = b) && isPrefOf as bs

/-- Python's substring test `pat in s`, scanning left to right. -/
def hasSub (pat : List Char) : List Char → Bool
  | [] => pat.isEmpty
  | c :: rest => isPrefOf pat (c :: rest) || hasSub pat rest

/-- String form of `hasSub`. -/
def strHasSub (s pat : String) : Bool := hasSub pat.data s.data

/-- Worker for Python's `str.split(sep)`: cut at each non-overlapping
    occurrence of `sep`, left to right.  `acc` is the piece being built
    (reversed); the counter, positive while the tail of a matched separator
    is still being consumed, suppresses the overlap.  (Used only with the
    non-empty separator 'ID #'; Python raises on an empty separator.) -/
def splitOnGo (sep : List Char) : List Char → List Char → Nat → List (List Char)
  | [], acc, _ => [acc.reverse]
  | _ :: rest, acc, k + 1 => splitOnGo sep rest acc k
  | c :: rest, acc, 0 =>
    if isPrefOf sep (c :: rest) = true then
      acc.reverse :: splitOnGo sep rest [] (sep.length - 1)
    else
      splitOnGo sep rest (c :: acc) 0

/-- Python `s.split(sep)` for a non-empty separator. -/
def pySplitOn (s sep : String) : List String :=
  (splitOnGo sep.data s.data [] 0).map (fun l => ⟨l⟩)

/-- Worker for Python's no-argument `str.split()`: cut at whitespace. -/
def wsSplitGo : List Char → List Char → List (List Char)
  | [], acc => [acc.reverse]
  | c :: rest, acc =>
    if c.isWhitespace then acc.reverse :: wsSplitGo rest []
    else wsSplitGo rest (c :: acc)

/-- Python `s.split()`: split on whitespace runs, discarding empty pieces. -/
def pySplitWs (s : String) : List String :=
  ((wsSplitGo s.data []).filter (fun l => !l.isEmpty)).map (fun l => ⟨l⟩)

/-- Numeric value of a decimal digit character. -/
def digitVal (c : Char) : Nat := c.toNat - 48

/-- Python `int(s)` restricted to plain decimal-digit strings, the only shape
    the bot's own footers produce; any other input makes `int` raise, which
    the scanner's bare `except` turns into skipping the message, exactly as
    `none` does here. -/
def pyIntNat (s : String) : Option Nat :=
  if s.data ≠ [] ∧ s.data.all Char.isDigit then
    some (s.data.foldl (fun acc c => acc * 10 + digitVal c) 0)
  else none

/-- Model of the id extraction in `get_channel_state` (discord_bot.py:420-429):
    `int(footer_text.split("ID #")[1].split()[0])` guarded by
    `"ID #" in footer_text`, with every failure swallowed by `except: pass`. -/
def extract_res_id (footer : String) : Option Nat :=
  let parts := pySplitOn footer "ID #"
  if parts.length ≤ 1 then none
  else
    match pySplitWs (parts.getD 1 "") with
    | [] => none
    | w :: _ => pyIntNat w

/-- Day of week with Python's `date.weekday()` convention (Monday = 0),
    computed by Sakamoto's congruence. -/
def weekday (f : Fecha) : Nat :=
  let t := [0, 3, 2, 5, 0, 3, 5, 1, 4, 6, 2, 4]
  let y := if f.m < 3 then f.y - 1 else f.y
  (y + y / 4 - y / 100 + y / 400 + t.getD (f.m - 1) 0 + f.d + 6) % 7

/-- Weekday names used by the confirmed/pending date headers
    (discord_bot.py:493, 620). -/
def weekdays_es : List String :=
  ["Lunes", "Martes", "Miércoles", "Jueves", "Viernes", "Sábado", "Domingo"]

/-- Month abbreviations used by the confirmed/pending date headers. -/
def months_es : List String :=
  ["Ene", "Feb", "Mar", "Abr", "May", "Jun", "Jul", "Ago", "Sep", "Oct", "Nov", "Dic"]

/-- Upper-case weekday names used by the today header
    (discord_bot.py:478, 584). -/
def weekdays_caps : List String :=
  ["LUNES", "MARTES", "MIÉRCOLES", "JUEVES", "VIERNES", "SÁBADO", "DOMINGO"]

/-- Full month names after the `month.upper()` applied by the today header. -/
def months_full_upper : List String :=
  ["ENERO", "FEBRERO", "MARZO", "ABRIL", "MAYO", "JUNIO", "JULIO", "AGOSTO",
   "SEPTIEMBRE", "OCTUBRE", "NOVIEMBRE", "DICIEMBRE"]

/-- Date header rendered for confirmed/pending groups (the same f-string at
    discord_bot.py:502 and discord_bot.py:630): note it carries weekday, day
    and month but no year.  Out-of-range month indexes (which would raise
    IndexError in Python) render as an empty name. -/
def date_header (f : Fecha) : String :=
  "═══ " ++ weekdays_es.getD (weekday f) "" ++ " · " ++ pad2 f.d ++ " " ++
    months_es.getD (f.m - 1) "" ++ " ═══"

/-- Header rendered for the today channel (discord_bot.py:486 and
    discord_bot.py:594). -/
def today_header (f : Fecha) : String :=
  "🌟 " ++ weekdays_caps.getD (weekday f) "" ++ " " ++ toString f.d ++ " DE " ++
    months_full_upper.getD (f.m - 1) "" ++ " 🌟"

/-- Discord embed as far as the reconciliation scanner reads it: title,
    description and footer text (absent pieces are `none`). -/
structure Embed where
  title : Option String
  description : Option String
  footer : Option String
deriving DecidableEq

/-- Channel message: the scanner only inspects `embeds`; a plain text message
    has none. -/
structure Msg where
  embeds : List Embed
deriving DecidableEq

/-- Dashboard channel selector (`status_type` in the source). -/
inductive SType where
  | confirmed
  | pending
  | today
deriving DecidableEq

/-- String form of the channel selector as passed around by the source. -/
def stype_str : SType → String
  | .confirmed => "confirmed"
  | .pending => "pending"
  | .today => "today"

/-- Icon chosen by `create_reservation_embed` (discord_bot.py:374-399). -/
def card_icon (status_type : String) : String :=
  if status_type = "confirmed" then "✅"
  else if status_type = "pending" then "⏳"
  else "📅"

/-- Embed title of a reservation card:
    `f"{icon} {res['hora']} · {res['nombre']} · {res['personas']}p"`. -/
def card_title (status_type : String) (r : Reservation) : String :=
  card_icon status_type ++ " " ++ fmt_hora r.hora ++ " · " ++ r.nombre ++ " · " ++
    toString r.personas ++ "p"

/-- Embed footer of a reservation card:
    `f"📞 {res['telefono']} • ID #{res['id']}"`. -/
def card_footer (r : Reservation) : String :=
  "📞 " ++ r.telefono ++ " • ID #" ++ toString r.id

/-- Model of `create_reservation_embed` (discord_bot.py:374-399). -/
def create_reservation_embed (status_type : String) (r : Reservation) : Embed :=
  { title := some (card_title status_type r),
    description := if r.notes ≠ "" then some ("📝 " ++ r.notes) else none,
    footer := some (card_footer r) }

/-- Row order `ORDER BY fecha, hora` on the stored TEXT values (byte order).
    SQLite leaves equal keys in unspecified relative order; the model commits
    to the stable insertion-sort order, one of the admissible results. -/
def row_le_fh (a b : Reservation) : Prop :=
  strLe (fmt_fecha a.fecha) (fmt_fecha b.fecha) = true ∧
    (fmt_fecha a.fecha = fmt_fecha b.fecha →
      strLe (fmt_hora a.hora) (fmt_hora b.hora) = true)

instance : DecidableRel row_le_fh := fun _ _ =>
  inferInstanceAs (Decidable (_ ∧ _))

/-- Row order `ORDER BY hora` (today channel). -/
def row_le_h (a b : Reservation) : Prop :=
  strLe (fmt_hora a.hora) (fmt_hora b.hora) = true

instance : DecidableRel row_le_h := fun a b =>
  inferInstanceAs (Decidable (strLe (fmt_hora a.hora) (fmt_hora b.hora) = true))

/-- Order on dates by their 'YYYY-MM-DD' strings, the order Python's
    `sorted()` gives the date-string keys at discord_bot.py:617. -/
def fecha_str_le (a b : Fecha) : Prop :=
  strLe (fmt_fecha a) (fmt_fecha b) = true

instance : DecidableRel fecha_str_le := fun a b =>
  inferInstanceAs (Decidable (strLe (fmt_fecha a) (fmt_fecha b) = true))

/-- Rows a dashboard channel shows, per the three SQL queries shared by
    `get_database_state` (discord_bot.py:438-463) and
    `sync_channel_with_headers` (discord_bot.py:545-570).  `today_utc` stands
    for SQLite's `date('now')` (no 'localtime' modifier in these queries). -/
def bot_query (db : Db) (today_utc : Fecha) : SType → List Reservation
  | .confirmed =>
    List.insertionSort row_le_fh (db.reservations.filter (fun r =>
      r.user_confirmed && r.restaurant_confirmed && !r.cancelled &&
      strLe (fmt_fecha today_utc) (fmt_fecha r.fecha)))
  | .pending =>
    List.insertionSort row_le_fh (db.reservations.filter (fun r =>
      r.user_confirmed && !r.restaurant_confirmed && !r.cancelled))
  | .today =>
    List.insertionSort row_le_h (db.reservations.filter (fun r =>
      r.user_confirmed && r.restaurant_confirmed && !r.cancelled &&
      decide (fmt_fecha r.fecha = fmt_fecha today_utc)))

/-- Keys of the date-header dictionary. -/
def dict_keys (d : List (String × List Nat)) : List String := d.map (·.1)

/-- Python dict assignment `d[k] = v`: replace in place when the key exists,
    append otherwise. -/
def dict_set (d : List (String × List Nat)) (k : String) (v : List Nat) :
    List (String × List Nat) :=
  if d.any (fun e => decide (e.1 = k)) then
    d.map (fun e => if e.1 = k then (e.1, v) else e)
  else d ++ [(k, v)]

/-- Python `defaultdict(list)` append `d[k].append(i)`: extend the existing
    entry, creating `[i]` for a fresh key. -/
def dict_append (d : List (String × List Nat)) (k : String) (i : Nat) :
    List (String × List Nat) :=
  if d.any (fun e => decide (e.1 = k)) then
    d.map (fun e => if e.1 = k then (e.1, e.2 ++ [i]) else e)
  else d ++ [(k, [i])]

/-- Python `d.get(k, [])`. -/
def dict_get (d : List (String × List Nat)) (k : String) : List Nat :=
  match d.find? (fun e => decide (e.1 = k)) with
  | some e => e.2
  | none => []

/-- One step of the scanner loop in `get_channel_state`
    (discord_bot.py:410-429): a message whose first embed's title contains
    '═══' or '🌟' opens (or resets) a header group; otherwise a non-empty
    footer is mined for 'ID #<n>' and the id is appended to the current
    group, if any; everything else is skipped. -/
def channel_scan_step (acc : List (String × List Nat) × Option String) (msg : Msg) :
    List (String × List Nat) × Option String :=
  match msg.embeds.head? with
  | none => acc
  | some e =>
    let title := e.title.getD ""
    if title ≠ "" ∧ strHasSub title "═══" = true then (dict_set acc.1 title [], some title)
    else if title ≠ "" ∧ strHasSub title "🌟" = true then (dict_set acc.1 title [], some title)
    else
      match e.footer with
      | none => acc
      | some ft =>
        if ft = "" then acc
        else
          match extract_res_id ft with
          | none => acc
          | some i =>
            match acc.2 with
            | some k => (dict_append acc.1 k i, acc.2)
            | none => acc

/-- Model of `get_channel_state` (discord_bot.py:401-431): scan the oldest
    200 messages (`history(limit=200, oldest_first=True)`) and reconstruct
    the header → reservation-id dictionary. -/
def get_channel_state (msgs : List Msg) : List (String × List Nat) :=
  ((msgs.take 200).foldl channel_scan_step ([], none)).1

/-- Model of `get_database_state` (discord_bot.py:433-506): the desired
    header → id dictionary derived from storage.  `now_local` is the bot
    host's `datetime.now()` used for the today header. -/
def get_database_state (db : Db) (today_utc : Fecha) (now_local : DateTime)
    (st : SType) : List (String × List Nat) :=
  let rows := bot_query db today_utc st
  match st with
  | .today =>
    if rows.isEmpty then [] else [(today_header now_local.fecha, rows.map (·.id))]
  | _ => rows.foldl (fun acc r => dict_append acc (date_header r.fecha) r.id) []

/-- Model of `states_match` (discord_bot.py:508-522): equal key sets and,
    per key of the desired state, equal id sets. -/
def states_match (channel_state db_state : List (String × List Nat)) : Bool :=
  decide ((dict_keys channel_state).toFinset = (dict_keys db_state).toFinset) &&
  db_state.all (fun e => decide ((dict_get channel_state e.1).toFinset = e.2.toFinset))

/-- The '🔭 No hay reservas en este momento' text message: no embeds. -/
def no_reservations_msg : Msg := ⟨[]⟩

/-- Date-header message posted during a rebuild (discord_bot.py:629-633). -/
def header_msg (f : Fecha) : Msg :=
  ⟨[{ title := some (date_header f), description := none, footer := none }]⟩

/-- Today-header message posted during a rebuild (discord_bot.py:593-598). -/
def today_header_msg (f : Fecha) (total : Nat) : Msg :=
  ⟨[{ title := some (today_header f),
      description := some ("Total: " ++ toString total ++ " reservas hoy"),
      footer := none }]⟩

/-- Reservation-card message posted during a rebuild. -/
def card_msg (status_type : String) (r : Reservation) : Msg :=
  ⟨[create_reservation_embed status_type r]⟩

/-- First-occurrence deduplication: the key order of a Python dict built by
    repeated insertion (`reservations_by_date` at discord_bot.py:612-614). -/
def dedupFirst {α : Type} [DecidableEq α] (l : List α) : List α :=
  l.foldl (fun acc x => if x ∈ acc then acc else acc ++ [x]) []

/-- Messages the rebuild branch of `sync_channel_with_headers`
    (discord_bot.py:539-658) posts: the no-reservations notice for an empty
    row set; for the today channel one big header then every card; for
    confirmed/pending one date header per distinct date in ascending
    'YYYY-MM-DD' order, each followed by its date's cards in row order. -/
def render_rebuild (db : Db) (today_utc : Fecha) (now_local : DateTime)
    (st : SType) : List Msg :=
  let rows := bot_query db today_utc st
  if rows.isEmpty then [no_reservations_msg]
  else
    match st with
    | .today => today_header_msg now_local.fecha rows.length :: rows.map (card_msg "today")
    | _ =>
      let keys := List.insertionSort fecha_str_le (dedupFirst (rows.map (·.fecha)))
      (keys.map (fun f =>
        header_msg f ::
          (rows.filter (fun r => decide (r.fecha = f))).map (card_msg (stype_str st)))).flatten

/-- Model of `sync_channel_with_headers` (discord_bot.py:524-658): compare
    observed and desired state; when they match, do nothing; otherwise purge
    the channel (`purge(limit=200)` deletes the newest 200 messages, leaving
    any older remainder in place) and post the rebuild.  Returns the new
    channel contents (messages oldest first) and the number of writes —
    deletions plus posts — performed against the display channel. -/
def sync_channel_with_headers (db : Db) (today_utc : Fecha) (now_local : DateTime)
    (st : SType) (channel : List Msg) : List Msg × Nat :=
  let channel_state := get_channel_state channel
  let db_state := get_database_state db today_utc now_local st
  if states_match channel_state db_state then (channel, 0)
  else
    let deleted := min channel.length 200
    let kept := channel.take (channel.length - 200)
    let posted := render_rebuild db today_utc now_local st
    (kept ++ posted, deleted + posted.length)

/-- Head comparison extracted from a `charsLe` fact. -/
theorem charsLe_cons_elim {x y : Char} {xs ys : List Char}
    (h : charsLe (x :: xs) (y :: ys) = true) :
    x.toNat < y.toNat ∨ (x.toNat = y.toNat ∧ charsLe xs ys = true) := by
  by_cases h1 : x.toNat < y.toNat
  · exact Or.inl h1
  · by_cases h2 : y.toNat < x.toNat
    · simp [charsLe, h1, h2] at h
    · refine Or.inr ⟨by omega, ?_⟩
      simpa [charsLe, h1, h2] using h

/-- Reflexivity of the byte order. -/
theorem charsLe_refl (l : List Char) : charsLe l l = true := by
  induction l with
  | nil => rfl
  | cons a as ih => simp [charsLe, ih]

/-- Totality of the byte order. -/
theorem charsLe_total (a : List Char) : ∀ b, charsLe a b = true ∨ charsLe b a = true := by
  induction a with
  | nil => intro b; exact Or.inl rfl
  | cons x xs ih =>
    intro b
    cases b with
    | nil => exact Or.inr rfl
    | cons y ys =>
      by_cases h1 : x.toNat < y.toNat
      · exact Or.inl (by simp [charsLe, h1])
      · by_cases h2 : y.toNat < x.toNat
        · exact Or.inr (by simp [charsLe, h2])
        · rcases ih ys with h | h
          · exact Or.inl (by simp [charsLe, h1, h2, h])
          · exact Or.inr (by simp [charsLe, h1, h2, h])

/-- Transitivity of the byte order. -/
theorem charsLe_trans (a : List Char) :
    ∀ b c, charsLe a b = true → charsLe b c = true → charsLe a c = true := by
  induction a with
  | nil => intro b c _ _; rfl
  | cons x xs ih =>
    intro b c hab hbc
    cases b with
    | nil => simp [charsLe] at hab
    | cons y ys =>
      cases c with
      | nil => simp [charsLe] at hbc
      | cons z zs =>
        rcases charsLe_cons_elim hab with h1 | ⟨h1, h1t⟩ <;>
          rcases charsLe_cons_elim hbc with h2 | ⟨h2, h2t⟩
        · have hxz : x.toNat < z.toNat := by omega
          simp [charsLe, hxz]
        · have hxz : x.toNat < z.toNat := by omega
          simp [charsLe, hxz]
        · have hxz : x.toNat < z.toNat := by omega
          simp [charsLe, hxz]
        · have hv1 : ¬ x.toNat < z.toNat := by omega
          have hv2 : ¬ z.toNat < x.toNat := by omega
          simpa [charsLe, hv1, hv2] using ih ys zs h1t h2t

/-- Antisymmetry of the byte order. -/
theorem charsLe_antisymm (a : List Char) :
    ∀ b, charsLe a b = true → charsLe b a = true → a = b := by
  induction a with
  | nil =>
    intro b _ hba
    cases b with
    | nil => rfl
    | cons y ys => simp [charsLe] at hba
  | cons x xs ih =>
    intro b hab hba
    cases b with
    | nil => simp [charsLe] at hab
    | cons y ys =>
      rcases charsLe_cons_elim hab with h1 | ⟨h1, h1t⟩ <;>
        rcases charsLe_cons_elim hba with h2 | ⟨h2, h2t⟩ <;>
        try omega
      have hxy : x = y := Char.eq_of_val_eq (UInt32.ext h1)
      rw [hxy, ih ys h1t h2t]

/-- Reflexivity at the string level. -/
theorem strLe_refl (s : String) : strLe s s = true := charsLe_refl s.data

/-- Totality at the string level. -/
theorem strLe_total (a b : String) : strLe a b = true ∨ strLe b a = true :=
  charsLe_total a.data b.data

/-- Transitivity at the string level. -/
theorem strLe_trans {a b c : String} (h1 : strLe a b = true) (h2 : strLe b c = true) :
    strLe a c = true :=
  charsLe_trans a.data b.data c.data h1 h2

/-- Antisymmetry at the string level. -/
theorem strLe_antisymm {a b : String} (h1 : strLe a b = true) (h2 : strLe b a = true) :
    a = b := by
  cases a with
  | mk da =>
    cases b with
    | mk db => exact congrArg String.mk (charsLe_antisymm da db h1 h2)

instance : IsTotal Hora hora_le := ⟨fun _ _ => strLe_total _ _⟩

instance : IsTrans Hora hora_le := ⟨fun _ _ _ h1 h2 => strLe_trans h1 h2⟩

instance : IsTotal Fecha fecha_str_le := ⟨fun _ _ => strLe_total _ _⟩

instance : IsTrans Fecha fecha_str_le := ⟨fun _ _ _ h1 h2 => strLe_trans h1 h2⟩

instance : IsTotal Reservation row_le_h := ⟨fun _ _ => strLe_total _ _⟩

instance : IsTrans Reservation row_le_h := ⟨fun _ _ _ h1 h2 => strLe_trans h1 h2⟩

instance : IsTotal Reservation row_le_fh := by
  constructor
  intro a b
  rcases strLe_total (fmt_fecha a.fecha) (fmt_fecha b.fecha) with h | h
  · by_cases hba : strLe (fmt_fecha b.fecha) (fmt_fecha a.fecha) = true
    · have heq : fmt_fecha a.fecha = fmt_fecha b.fecha := strLe_antisymm h hba
      rcases strLe_total (fmt_hora a.hora) (fmt_hora b.hora) with hh | hh
      · exact Or.inl ⟨h, fun _ => hh⟩
      · exact Or.inr ⟨hba, fun _ => hh⟩
    · exact Or.inl ⟨h, fun heq => absurd (heq ▸ strLe_refl (fmt_fecha a.fecha)) hba⟩
  · by_cases hab : strLe (fmt_fecha a.fecha) (fmt_fecha b.fecha) = true
    · have heq : fmt_fecha a.fecha = fmt_fecha b.fecha := strLe_antisymm hab h
      rcases strLe_total (fmt_hora a.hora) (fmt_hora b.hora) with hh | hh
      · exact Or.inl ⟨hab, fun _ => hh⟩
      · exact Or.inr ⟨h, fun _ => hh⟩
    · exact Or.inr ⟨h, fun heq => absurd (heq ▸ strLe_refl (fmt_fecha b.fecha)) hab⟩

instance : IsTrans Reservation row_le_fh := by
  constructor
  intro a b c hab hbc
  refine ⟨strLe_trans hab.1 hbc.1, fun hac => ?_⟩
  have hba : strLe (fmt_fecha b.fecha) (fmt_fecha a.fecha) = true := by
    rw [hac]; exact hbc.1
  have hab' : fmt_fecha a.fecha = fmt_fecha b.fecha := strLe_antisymm hab.1 hba
  have hbc' : fmt_fecha b.fecha = fmt_fecha c.fecha := by rw [← hab', hac]
  exact strLe_trans (hab.2 hab') (hbc.2 hbc')

/-- The hard-coded default slot template (app.py:86). -/
def DEFAULT_HOURS : List Hora :=
  [⟨13, 0⟩, ⟨13, 30⟩, ⟨14, 0⟩, ⟨14, 30⟩, ⟨20, 30⟩, ⟨21, 0⟩, ⟨21, 30⟩, ⟨22, 0⟩]

/-- Example instant: Monday 2026-10-12, 10:00:00 local time. -/
def ex_now : DateTime := ⟨⟨2026, 10, 12⟩, ⟨10, 0⟩, 0⟩

/-- Empty database, next id 1 (AUTOINCREMENT starts at 1). -/
def ex_db0 : Db := ⟨[], [], [], 1⟩

/-- Character-list core of `clean_phone_number`. -/
def clean_chars (l : List Char) : List Char :=
  if (l.filter keep_phone_char).head? = some '+' then l.filter keep_phone_char
  else '+' :: l.filter keep_phone_char

/-- The string function is the character-list core in disguise. -/
theorem clean_phone_number_eq (s : String) :
    clean_phone_number s = ⟨clean_chars s.data⟩ := by
  show (if (s.data.filter keep_phone_char).head? = some '+'
      then (⟨s.data.filter keep_phone_char⟩ : String)
      else ⟨'+' :: s.data.filter keep_phone_char⟩) =
    ⟨if (s.data.filter keep_phone_char).head? = some '+'
      then s.data.filter keep_phone_char
      else '+' :: s.data.filter keep_phone_char⟩
  by_cases h : (s.data.filter keep_phone_char).head? = some '+'
  · rw [if_pos h, if_pos h]
  · rw [if_neg h, if_neg h]

/-- Filtering an already filtered list is the identity. -/
theorem filter_keep_idem (l : List Char) :
    (l.filter keep_phone_char).filter keep_phone_char = l.filter keep_phone_char :=
  List.filter_eq_self.mpr (fun _ ha => List.of_mem_filter ha)

/-- Idempotence at the character-list level. -/
theorem clean_chars_idem (l : List Char) : clean_chars (clean_chars l) = clean_chars l := by
  by_cases h : (l.filter keep_phone_char).head? = some '+'
  · have h1 : clean_chars l = l.filter keep_phone_char := by rw [clean_chars, if_pos h]
    rw [h1, clean_chars, filter_keep_idem, if_pos h]
  · have h1 : clean_chars l = '+' :: l.filter keep_phone_char := by rw [clean_chars, if_neg h]
    have hplus : keep_phone_char '+' = true := rfl
    have h2 : ('+' :: l.filter keep_phone_char).filter keep_phone_char =
        '+' :: l.filter keep_phone_char := by
      rw [List.filter_cons_of_pos hplus, filter_keep_idem]
    rw [h1, clean_chars, h2]
    simp

/-- Shape at the character-list level: leading '+', no filtered characters. -/
theorem clean_chars_shape (l : List Char) :
    (clean_chars l).head? = some '+' ∧
      ∀ c ∈ clean_chars l, keep_phone_char c = true := by
  by_cases h : (l.filter keep_phone_char).head? = some '+'
  · rw [clean_chars, if_pos h]
    exact ⟨h, fun c hc => List.of_mem_filter hc⟩
  · rw [clean_chars, if_neg h]
    refine ⟨rfl, fun c hc => ?_⟩
    rcases List.mem_cons.mp hc with h1 | h1
    · rw [h1]; rfl
    · exact List.of_mem_filter h1

/-- Example request for the C10 witness. -/
def c10_req : CreateReq :=
  ⟨some "Ana", some "600 111-222", some 2, some ⟨2026, 10, 20⟩, some ⟨20, 30⟩, none⟩

/-- C10: `clean_phone_number` is idempotent, its output always starts with
    '+' and contains no spaces, hyphens or parentheses, and a successful
    Create stores the phone only in this canonical form (the duplicate query
    likewise keys on `clean_phone_number` of the raw input, see
    `create_reservation`). -/
theorem phone_canonicalization :
    (∀ s, clean_phone_number (clean_phone_number s) = clean_phone_number s) ∧
    (∀ s, (clean_phone_number s).data.head? = some '+' ∧
      ∀ c ∈ (clean_phone_number s).data,
        c ≠ ' ' ∧ c ≠ '-' ∧ c ≠ '(' ∧ c ≠ ')') ∧
    (∀ (threshold : Int) (db : Db) (now : DateTime) (req : CreateReq) (token : String)
        (telefono : String) (id : Nat) (large : Bool) (db2 : Db) (notifs : List Notif),
      req.telefono = some telefono →
      create_reservation threshold db now req token = (.success id large, db2, notifs) →
      ∃ row, row ∈ db2.reservations ∧ row.id = id ∧
        row.telefono = clean_phone_number telefono) := by
  refine ⟨?_, ?_, ?_⟩
  · intro s
    rw [clean_phone_number_eq s, clean_phone_number_eq]
    exact congrArg String.mk (clean_chars_idem s.data)
  · intro s
    rw [clean_phone_number_eq]
    refine ⟨(clean_chars_shape s.data).1, fun c hc => ?_⟩
    have hk := (clean_chars_shape s.data).2 c hc
    simp only [keep_phone_char, Bool.not_eq_true', Bool.or_eq_false_iff,
      decide_eq_false_iff_not] at hk
    exact ⟨hk.1.1.1, hk.1.1.2, hk.1.2, hk.2⟩
  · intro threshold db now req token telefono id large db2 notifs ht h
    rcases req with ⟨nom, tel, per, fec, hor, notes⟩
    simp only at ht
    subst ht
    cases nom with
    | none => simp [create_reservation] at h
    | some nombre =>
      by_cases hn : nombre = "" <;>
        simp only [create_reservation, hn, if_true, if_false] at h
      · simp at h
      · by_cases htel : telefono = "" <;> simp only [htel, if_true, if_false] at h
        · simp at h
        · cases per with
          | none => simp at h
          | some personas =>
            by_cases hp : personas = 0 <;> simp only [hp, if_true, if_false] at h
            · simp at h
            · cases fec with
              | none => simp at h
              | some fecha =>
                cases hor with
                | none => simp at h
                | some hora =>
                  cases hfind : db.reservations.find?
                      (duplicate_active_pred (clean_phone_number telefono) now.fecha) with
                  | some r => simp [hfind] at h
                  | none =>
                    simp only [hfind] at h
                    by_cases hb : (is_booking_allowed db now fecha hora).1 <;>
                      simp only [hb, Bool.not_true, Bool.not_false, if_true, if_false] at h
                    · rw [Prod.mk.injEq, Prod.mk.injEq] at h
                      obtain ⟨hres, hdb2, -⟩ := h
                      injection hres with hid hlarge
                      refine ⟨{ id := db.next_id, nombre := nombre,
                                telefono := clean_phone_number telefono,
                                personas := personas, fecha := fecha, hora := hora,
                                user_confirmed := false,
                                restaurant_confirmed := !is_large_group threshold personas,
                                cancelled := false, cancelled_at := none,
                                cancelled_by := none, confirmation_token := token,
                                notes := notes.getD "" }, ?_, hid, rfl⟩
                      rw [← hdb2]
                      simp [log_action]
                    · simp at h

/-- C10 witness: the phone-canonicalization theorem applied at concrete
    inputs. -/
theorem phone_canonicalization_witness :
    clean_phone_number (clean_phone_number "600 111-222") = clean_phone_number "600 111-222" ∧
    (∃ row, row ∈ ((create_reservation 4 ex_db0 ex_now c10_req "tokX").2.1).reservations ∧
      row.id = 1 ∧ row.telefono = clean_phone_number "600 111-222") :=
  ⟨phone_canonicalization.1 "600 111-222",
    phone_canonicalization.2.2 4 ex_db0 ex_now c10_req "tokX" "600 111-222" 1 false
      (create_reservation 4 ex_db0 ex_now c10_req "tokX").2.1
      (create_reservation 4 ex_db0 ex_now c10_req "tokX").2.2
      rfl (by decide)⟩

/-- Active, fully confirmed reservation dated today (2026-10-12) at 21:00,
    while `ex_now` is 10:00 the same day: the slot is still ahead. -/
def c1_res : Reservation :=
  ⟨1, "Ana", "+34600111222", 2, ⟨2026, 10, 12⟩, ⟨21, 0⟩, true, true, false, none, none,
    "tok1", ""⟩

/-- Database holding only `c1_res`. -/
def c1_db : Db := ⟨[c1_res], [], [], 2⟩

/-- C1: the customer cancellation link rejects a same-day reservation.  The
    reservation exists, is not cancelled, its slot (21:00) is still in the
    future of `ex_now` (10:00) — the third conjunct is exactly the
    datetime-level guard the confirm endpoint uses, and it passes — yet
    `GET /cancel/<token>` answers with the invalid-link page and leaves the
    database untouched, because its query truncates `fecha || ' ' || hora`
    with `date()` and the resulting 'YYYY-MM-DD' string compares below the
    full 'YYYY-MM-DD HH:MM:SS' now-string.  The admin cancellation of the
    same reservation succeeds, cancels it, and appends the audit row. -/
theorem cancel_today_token_rejected :
    c1_res.cancelled = false ∧
    c1_res.fecha = ex_now.fecha ∧
    strLe (fmt_datetime ex_now)
      (fmt_fecha c1_res.fecha ++ " " ++ fmt_hora c1_res.hora ++ ":00") = true ∧
    cancel_reservation [] c1_db ex_now "tok1" = (CancelRes.invalid, c1_db, []) ∧
    (admin_cancel_reservation c1_db ex_now 1 none).1 = AdminCancelRes.success ∧
    ((admin_cancel_reservation c1_db ex_now 1 none).2.1.reservations.map (·.cancelled))
      = [true] ∧
    ((admin_cancel_reservation c1_db ex_now 1 none).2.1.action_log.map (·.action_type))
      = ["cancelled"] := by decide

/-- Cancelled reservation that was never restaurant-approved (large party of
    8, cancelled by an admin before approval). -/
def c3_res : Reservation :=
  ⟨1, "Bob", "+34600000001", 8, ⟨2026, 10, 20⟩, ⟨21, 0⟩, true, false, true, none,
    some "admin", "tok3", ""⟩

/-- Database holding only `c3_res`. -/
def c3_db : Db := ⟨[c3_res], [], [], 2⟩

/-- C3: invoked on a cancelled, unapproved reservation, the dashboard approve
    button does not return a typed rejection — its callback never checks
    `cancelled` and runs straight into the
    `UPDATE ... SET restaurant_confirmed = 1, status = 'confirmed'` statement,
    which references a column the schema does not have and raises an
    unhandled `OperationalError` (the reservation itself stays unchanged and
    no audit row is written).  The admin API on the same reservation returns
    the typed cancelled rejection the claim describes. -/
theorem restaurant_approve_cancelled_behavior :
    c3_res.cancelled = true ∧ c3_res.restaurant_confirmed = false ∧
    discord_confirm_callback c3_db 1 =
      (DiscordConfirmRes.sql_error_no_status_column, c3_db, []) ∧
    admin_approve_reservation c3_db 1 = (AdminApproveRes.cancelled_rejection, c3_db, []) := by
  decide

/-- Active reservation awaiting customer confirmation, dated 2026-10-20. -/
def c9_res : Reservation :=
  ⟨1, "Eva", "+34600000002", 2, ⟨2026, 10, 20⟩, ⟨20, 30⟩, false, true, false, none, none,
    "tok9", ""⟩

/-- Database holding only `c9_res`. -/
def c9_db : Db := ⟨[c9_res], [], [], 2⟩

/-- C9: CustomerConfirm commits its reservation mutation and its audit append
    in two separate transactions.  The commit trace of
    `confirm_reservation` has two entries; after the first committed
    transaction the reservation already has `user_confirmed = true` while the
    audit log is still empty — the state an interruption between the two
    commits (app.py:846-851 versus the separate connection of `log_action`)
    leaves behind, which the claim says must be unreachable. -/
theorem confirm_mutation_and_audit_separate_commits :
    ((confirm_reservation 4 [] c9_db ex_now "tok9").2.1).length = 2 ∧
    (((confirm_reservation 4 [] c9_db ex_now "tok9").2.1).getD 0 c9_db).reservations.map
        (·.user_confirmed) = [true] ∧
    (((confirm_reservation 4 [] c9_db ex_now "tok9").2.1).getD 0 c9_db).action_log = [] ∧
    (((confirm_reservation 4 [] c9_db ex_now "tok9").2.1).getD 1 c9_db).action_log =
      [⟨1, "user_confirmed", "customer", some "Via SMS link"⟩] := by decide

/-- Appending an audit row leaves the reservations table unchanged. -/
theorem log_action_reservations (db : Db) (i : Nat) (a p : String) (d : Option String) :
    (log_action db i a p d).reservations = db.reservations := rfl

/-- Appending an audit row leaves the blocked hours unchanged. -/
theorem log_action_action_log (db : Db) (i : Nat) (a p : String) (d : Option String) :
    (log_action db i a p d).action_log = db.action_log ++ [⟨i, a, p, d⟩] := rfl

/-- Failed token lookup makes the confirm endpoint answer the invalid page
    with no commits and no notifications. -/
theorem confirm_reservation_of_none (threshold : Int) (managers : List String)
    (db : Db) (now : DateTime) (token : String)
    (h : db.reservations.find? (confirm_token_pred token now) = none) :
    confirm_reservation threshold managers db now token = (ConfirmRes.invalid, [], []) := by
  simp only [confirm_reservation, h]

/-- Failed token lookup leaves the database untouched. -/
theorem confirm_reservation_db_of_none (threshold : Int) (managers : List String)
    (db : Db) (now : DateTime) (token : String)
    (h : db.reservations.find? (confirm_token_pred token now) = none) :
    confirm_reservation_db threshold managers db now token = db := by
  unfold confirm_reservation_db
  rw [confirm_reservation_of_none threshold managers db now token h]
  rfl

/-- C5: CustomerConfirm is idempotent.  When the token resolves (per the
    endpoint's own query) to the reservation `r`, and `r` is the only row
    carrying that token (the schema declares `confirmation_token` UNIQUE),
    then the first POST succeeds, sets `user_confirmed = true`, appends
    exactly one 'user_confirmed' audit row and sends exactly one customer SMS
    plus the manager fan-out; the second POST with the same token finds no
    matching row, reports the explicit invalid/already-done outcome, commits
    nothing and sends nothing, leaving every `user_confirmed` flag and the
    audit log exactly as after the first call. -/
theorem customer_confirm_idempotent
    (threshold : Int) (managers : List String) (db : Db) (now : DateTime)
    (token : String) (r : Reservation)
    (hfind : db.reservations.find? (confirm_token_pred token now) = some r)
    (huniq : ∀ x ∈ db.reservations, x.confirmation_token = token → x = r) :
    (confirm_reservation threshold managers db now token).1 =
        ConfirmRes.success (is_large_group threshold r.personas) ∧
    (∀ x ∈ (confirm_reservation_db threshold managers db now token).reservations,
        x.confirmation_token = token → x.user_confirmed = true) ∧
    (confirm_reservation_db threshold managers db now token).action_log =
        db.action_log ++ [⟨r.id, "user_confirmed", "customer", some "Via SMS link"⟩] ∧
    (confirm_reservation threshold managers db now token).2.2 =
        ⟨r.telefono, if is_large_group threshold r.personas then "confirm_sms_large"
          else "confirm_sms_small"⟩ :: notify_managers managers "manager_new_reservation" ∧
    confirm_reservation threshold managers
        (confirm_reservation_db threshold managers db now token) now token =
      (ConfirmRes.invalid, [], []) ∧
    confirm_reservation_db threshold managers
        (confirm_reservation_db threshold managers db now token) now token =
      confirm_reservation_db threshold managers db now token := by
  have hD1 : confirm_reservation_db threshold managers db now token =
      log_action
        { db with reservations := db.reservations.map (fun x =>
            if x.id = r.id then { x with user_confirmed := true } else x) }
        r.id "user_confirmed" "customer" (some "Via SMS link") := by
    simp only [confirm_reservation_db, confirm_reservation, hfind]
    rfl
  have hnone : ((confirm_reservation_db threshold managers db now token).reservations).find?
      (confirm_token_pred token now) = none := by
    rw [hD1, log_action_reservations]
    apply List.find?_eq_none.mpr
    intro x hx
    obtain ⟨y, hy, rfl⟩ := List.mem_map.mp hx
    by_cases hid : y.id = r.id
    · simp [confirm_token_pred, hid]
    · by_cases htok : y.confirmation_token = token
      · exact absurd (congrArg Reservation.id (huniq y hy htok)) hid
      · simp [confirm_token_pred, hid, htok]
  refine ⟨?_, ?_, ?_, ?_, ?_, ?_⟩
  · simp only [confirm_reservation, hfind]
  · intro x hx htok
    rw [hD1, log_action_reservations] at hx
    obtain ⟨y, hy, rfl⟩ := List.mem_map.mp hx
    by_cases hid : y.id = r.id
    · simp [hid]
    · by_cases hytok : y.confirmation_token = token
      · exact absurd (congrArg Reservation.id (huniq y hy hytok)) hid
      · rw [if_neg hid] at htok
        exact absurd htok hytok
  · rw [hD1, log_action_action_log]
  · simp only [confirm_reservation, hfind]
  · exact confirm_reservation_of_none threshold managers _ now token hnone
  · exact confirm_reservation_db_of_none threshold managers _ now token hnone

/-- C5 witness: the idempotence theorem applied to the concrete reservation
    `c9_res` awaiting confirmation. -/
theorem customer_confirm_idempotent_witness :
    (confirm_reservation 4 [] c9_db ex_now "tok9").1 =
        ConfirmRes.success (is_large_group 4 c9_res.personas) ∧
    (∀ x ∈ (confirm_reservation_db 4 [] c9_db ex_now "tok9").reservations,
        x.confirmation_token = "tok9" → x.user_confirmed = true) ∧
    (confirm_reservation_db 4 [] c9_db ex_now "tok9").action_log =
        c9_db.action_log ++ [⟨c9_res.id, "user_confirmed", "customer", some "Via SMS link"⟩] ∧
    (confirm_reservation 4 [] c9_db ex_now "tok9").2.2 =
        ⟨c9_res.telefono, if is_large_group 4 c9_res.personas then "confirm_sms_large"
          else "confirm_sms_small"⟩ :: notify_managers [] "manager_new_reservation" ∧
    confirm_reservation 4 [] (confirm_reservation_db 4 [] c9_db ex_now "tok9") ex_now "tok9" =
      (ConfirmRes.invalid, [], []) ∧
    confirm_reservation_db 4 [] (confirm_reservation_db 4 [] c9_db ex_now "tok9") ex_now "tok9" =
      confirm_reservation_db 4 [] c9_db ex_now "tok9" :=
  customer_confirm_idempotent 4 [] c9_db ex_now "tok9" c9_res (by decide) (by decide)

/-- C6: the Booking-Window Policy table.  For a same-day request whose hour
    is not blocked: before 12:00 every slot is allowed; from 12:00 to 18:59 a
    slot before 19:00 is denied and one at or after 19:00 is allowed; from
    19:00 every same-day request is denied.  A request for any past date is
    always denied (blocked or not). -/
theorem booking_window_policy (db : Db) (now : DateTime) (fecha : Fecha) (hora : Hora) :
    (fecha = now.fecha → is_hour_available db fecha hora = true →
      ((now.hora.h < 12 → (is_booking_allowed db now fecha hora).1 = true) ∧
       (12 ≤ now.hora.h → now.hora.h < 19 → hora.h < 19 →
         (is_booking_allowed db now fecha hora).1 = false) ∧
       (12 ≤ now.hora.h → now.hora.h < 19 → 19 ≤ hora.h →
         (is_booking_allowed db now fecha hora).1 = true) ∧
       (19 ≤ now.hora.h → (is_booking_allowed db now fecha hora).1 = false))) ∧
    (fecha_lt fecha now.fecha = true → (is_booking_allowed db now fecha hora).1 = false) := by
  have hne1 : ("morning" : String) ≠ "before_morning" := by decide
  have hne2 : ("evening" : String) ≠ "before_morning" := by decide
  have hne3 : ("evening" : String) ≠ "morning" := by decide
  constructor
  · intro heq hav
    subst heq
    have hlt : fecha_lt now.fecha now.fecha = false := by simp [fecha_lt]
    refine ⟨?_, ?_, ?_, ?_⟩
    · intro h12
      have hct : get_current_timeslot now = "before_morning" := by
        simp [get_current_timeslot, h12]
      simp [is_booking_allowed, hav, hlt, hct]
    · intro h12a h12b hb
      have h1 : ¬ now.hora.h < 12 := by omega
      have hct : get_current_timeslot now = "morning" := by
        simp [get_current_timeslot, h1, h12b]
      simp [is_booking_allowed, hav, hlt, hct, hne1, hb]
    · intro h12a h12b hb
      have h1 : ¬ now.hora.h < 12 := by omega
      have hb' : ¬ hora.h < 19 := by omega
      have hct : get_current_timeslot now = "morning" := by
        simp [get_current_timeslot, h1, h12b]
      simp [is_booking_allowed, hav, hlt, hct, hne1, hb']
    · intro h19
      have h1 : ¬ now.hora.h < 12 := by omega
      have h2 : ¬ now.hora.h < 19 := by omega
      have hct : get_current_timeslot now = "evening" := by
        simp [get_current_timeslot, h1, h2]
      simp [is_booking_allowed, hav, hlt, hct, hne2, hne3]
  · intro hlt
    by_cases hav : is_hour_available db fecha hora = true
    · simp [is_booking_allowed, hav, hlt]
    · simp only [Bool.not_eq_true] at hav
      simp [is_booking_allowed, hav]

/-- Example instant: same day at 13:00 ("already serving lunch"). -/
def now_13 : DateTime := ⟨⟨2026, 10, 12⟩, ⟨13, 0⟩, 0⟩

/-- Example instant: same day at 20:30 ("already serving dinner"). -/
def now_2030 : DateTime := ⟨⟨2026, 10, 12⟩, ⟨20, 30⟩, 0⟩

/-- Example instant: same day at 08:00 (before service). -/
def now_08 : DateTime := ⟨⟨2026, 10, 12⟩, ⟨8, 0⟩, 0⟩

/-- C6 witness: the policy theorem instantiated at the four spec examples
    plus a past date. -/
theorem booking_window_policy_witness :
    (is_booking_allowed ex_db0 now_13 ⟨2026, 10, 12⟩ ⟨13, 30⟩).1 = false ∧
    (is_booking_allowed ex_db0 now_13 ⟨2026, 10, 12⟩ ⟨20, 0⟩).1 = true ∧
    (is_booking_allowed ex_db0 now_2030 ⟨2026, 10, 12⟩ ⟨21, 0⟩).1 = false ∧
    (is_booking_allowed ex_db0 now_08 ⟨2026, 10, 12⟩ ⟨13, 0⟩).1 = true ∧
    (is_booking_allowed ex_db0 now_13 ⟨2026, 10, 11⟩ ⟨20, 0⟩).1 = false :=
  ⟨((booking_window_policy ex_db0 now_13 ⟨2026, 10, 12⟩ ⟨13, 30⟩).1 rfl
      (by decide)).2.1 (by decide) (by decide) (by decide),
   ((booking_window_policy ex_db0 now_13 ⟨2026, 10, 12⟩ ⟨20, 0⟩).1 rfl
      (by decide)).2.2.1 (by decide) (by decide) (by decide),
   ((booking_window_policy ex_db0 now_2030 ⟨2026, 10, 12⟩ ⟨21, 0⟩).1 rfl
      (by decide)).2.2.2 (by decide),
   ((booking_window_policy ex_db0 now_08 ⟨2026, 10, 12⟩ ⟨13, 0⟩).1 rfl
      (by decide)).1 (by decide),
   (booking_window_policy ex_db0 now_13 ⟨2026, 10, 11⟩ ⟨20, 0⟩).2 (by decide)⟩

/-- Membership in the availability calculator: exactly the default template
    minus that date's blocked hours. -/
theorem mem_get_available_hours (default_hours : List Hora) (db : Db) (fecha : Fecha)
    (x : Hora) :
    x ∈ get_available_hours_for_date default_hours db fecha ↔
      (x ∈ default_hours ∧ x ∉ get_blocked_hours_for_date db fecha) := by
  simp [get_available_hours_for_date, List.mem_dedup, List.mem_filter]

/-- The availability calculator's output is sorted ascending by the 'HH:MM'
    strings. -/
theorem sorted_get_available_hours (default_hours : List Hora) (db : Db) (fecha : Fecha) :
    List.Sorted hora_le (get_available_hours_for_date default_hours db fecha) :=
  List.sorted_insertionSort hora_le _

/-- C7: the `/api/available-hours` endpoint returns exactly the default slot
    template minus that date's blocked hours, sorted ascending; same-day
    queries before 19:00 keep only the slots at hour ≥ 19, same-day queries
    from 19:00 and queries for past dates return nothing; the `all_blocked`
    flag is exactly emptiness of the returned list. -/
theorem api_available_hours_spec (default_hours : List Hora) (db : Db) (now : DateTime)
    (fecha : Fecha) :
    (fecha ≠ now.fecha → fecha_lt fecha now.fecha = false →
      ((∀ x, x ∈ (api_available_hours default_hours db now fecha).1 ↔
          (x ∈ default_hours ∧ x ∉ get_blocked_hours_for_date db fecha)) ∧
        List.Sorted hora_le (api_available_hours default_hours db now fecha).1)) ∧
    (fecha = now.fecha → now.hora.h < 19 →
      ((∀ x, x ∈ (api_available_hours default_hours db now fecha).1 ↔
          (x ∈ default_hours ∧ x ∉ get_blocked_hours_for_date db fecha ∧ 19 ≤ x.h)) ∧
        List.Sorted hora_le (api_available_hours default_hours db now fecha).1)) ∧
    (fecha = now.fecha → 19 ≤ now.hora.h →
      (api_available_hours default_hours db now fecha).1 = []) ∧
    (fecha_lt fecha now.fecha = true →
      (api_available_hours default_hours db now fecha).1 = []) ∧
    (api_available_hours default_hours db now fecha).2 =
      (api_available_hours default_hours db now fecha).1.isEmpty := by
  refine ⟨?_, ?_, ?_, ?_, ?_⟩
  · intro hne hlt
    have hres : (api_available_hours default_hours db now fecha).1 =
        get_available_hours_for_date default_hours db fecha := by
      simp [api_available_hours, hne, hlt]
    rw [hres]
    exact ⟨mem_get_available_hours default_hours db fecha,
      sorted_get_available_hours default_hours db fecha⟩
  · intro heq h19
    subst heq
    have hres : (api_available_hours default_hours db now now.fecha).1 =
        (get_available_hours_for_date default_hours db now.fecha).filter
          (fun h => decide (19 ≤ h.h)) := by
      simp [api_available_hours, h19]
    rw [hres]
    constructor
    · intro x
      rw [List.mem_filter, mem_get_available_hours]
      simp [and_assoc]
    · exact (sorted_get_available_hours default_hours db now.fecha).filter _
  · intro heq h19
    subst heq
    have h19' : ¬ now.hora.h < 19 := by omega
    simp [api_available_hours, h19']
  · intro hlt
    have hne : fecha ≠ now.fecha := by
      intro he
      rw [he] at hlt
      simp [fecha_lt] at hlt
    simp [api_available_hours, hne, hlt]
  · unfold api_available_hours
    split_ifs <;> rfl

/-- Database with 21:00 blocked on 2026-10-20. -/
def c7_db : Db := ⟨[], [], [(⟨2026, 10, 20⟩, ⟨21, 0⟩)], 1⟩

/-- C7 witness: the availability theorem instantiated at a future date with a
    blocked hour, a same-day morning query, a same-day evening query, and a
    past date. -/
theorem api_available_hours_spec_witness :
    ((⟨21, 0⟩ : Hora) ∈ (api_available_hours DEFAULT_HOURS c7_db ex_now ⟨2026, 10, 20⟩).1 ↔
      ((⟨21, 0⟩ : Hora) ∈ DEFAULT_HOURS ∧
        (⟨21, 0⟩ : Hora) ∉ get_blocked_hours_for_date c7_db ⟨2026, 10, 20⟩)) ∧
    List.Sorted hora_le (api_available_hours DEFAULT_HOURS c7_db ex_now ⟨2026, 10, 20⟩).1 ∧
    ((⟨13, 0⟩ : Hora) ∈ (api_available_hours DEFAULT_HOURS c7_db ex_now ⟨2026, 10, 12⟩).1 ↔
      ((⟨13, 0⟩ : Hora) ∈ DEFAULT_HOURS ∧
        (⟨13, 0⟩ : Hora) ∉ get_blocked_hours_for_date c7_db ⟨2026, 10, 12⟩ ∧ 19 ≤ 13)) ∧
    (api_available_hours DEFAULT_HOURS c7_db now_2030 ⟨2026, 10, 12⟩).1 = [] ∧
    (api_available_hours DEFAULT_HOURS c7_db ex_now ⟨2026, 10, 11⟩).1 = [] :=
  ⟨((api_available_hours_spec DEFAULT_HOURS c7_db ex_now ⟨2026, 10, 20⟩).1
      (by decide) (by decide)).1 ⟨21, 0⟩,
   ((api_available_hours_spec DEFAULT_HOURS c7_db ex_now ⟨2026, 10, 20⟩).1
      (by decide) (by decide)).2,
   ((api_available_hours_spec DEFAULT_HOURS c7_db ex_now ⟨2026, 10, 12⟩).2.1
      rfl (by decide)).1 ⟨13, 0⟩,
   (api_available_hours_spec DEFAULT_HOURS c7_db now_2030 ⟨2026, 10, 12⟩).2.2.1
      rfl (by decide),
   (api_available_hours_spec DEFAULT_HOURS c7_db ex_now ⟨2026, 10, 11⟩).2.2.2.1
      (by decide)⟩

/-- Blocked hour forces the blocked failure of the booking check. -/
theorem booking_blocked_result (db : Db) (now : DateTime) (fecha : Fecha) (hora : Hora)
    (hbl : hora ∈ get_blocked_hours_for_date db fecha) :
    is_booking_allowed db now fecha hora = (false, "Esta hora no está disponible") := by
  have hav : is_hour_available db fecha hora = false := by
    simp [is_hour_available, hbl]
  simp [is_booking_allowed, hav]

/-- The blocked-hour reason identifies the blocked branch: no other branch of
    the booking check produces that string. -/
theorem booking_reason_blocked (db : Db) (now : DateTime) (fecha : Fecha) (hora : Hora) :
    (is_booking_allowed db now fecha hora).2 = "Esta hora no está disponible" ↔
      hora ∈ get_blocked_hours_for_date db fecha := by
  by_cases hbl : hora ∈ get_blocked_hours_for_date db fecha
  · simp [booking_blocked_result db now fecha hora hbl, hbl]
  · have hav : is_hour_available db fecha hora = true := by
      simp [is_hour_available, hbl]
    simp only [is_booking_allowed, hav, Bool.not_true, Bool.false_eq_true, if_false]
    constructor
    · intro h
      split_ifs at h <;> simp_all
    · intro h
      exact absurd h hbl

/-- Request used by the C2 counterexample: 15:00 is absent from the default
    template and not blocked. -/
def c2_req : CreateReq :=
  ⟨some "Ana", some "600111222", some 2, some ⟨2026, 10, 20⟩, some ⟨15, 0⟩, none⟩

/-- C2 counterexample: a request whose time is not in the available slot set
    (the Availability Calculator's template-minus-blocked for that date) is
    nonetheless accepted, because `create_reservation` checks only the
    blocked list (via `is_booking_allowed` → `is_hour_available`) and never
    template membership. -/
theorem create_slot_template_counterexample :
    (⟨15, 0⟩ : Hora) ∉ get_available_hours_for_date DEFAULT_HOURS ex_db0 ⟨2026, 10, 20⟩ ∧
    (create_reservation 4 ex_db0 ex_now c2_req "tokC2").1 = CreateRes.success 1 false := by
  decide

/-- C2 amended: with all fields present and no duplicate, Create is rejected
    with the slot-unavailable reason exactly when the requested hour is in
    that date's blocked list, and it is accepted exactly when the
    Booking-Window Policy check (which contains the blocked-hour test but no
    template test) passes. -/
theorem create_slot_check_amended
    (threshold : Int) (db : Db) (now : DateTime) (req : CreateReq) (token : String)
    (nombre telefono : String) (personas : Int) (fecha : Fecha) (hora : Hora)
    (hn : req.nombre = some nombre) (hn2 : nombre ≠ "")
    (ht : req.telefono = some telefono) (ht2 : telefono ≠ "")
    (hp : req.personas = some personas) (hp2 : personas ≠ 0)
    (hf : req.fecha = some fecha) (hh : req.hora = some hora)
    (hdup : db.reservations.find?
        (duplicate_active_pred (clean_phone_number telefono) now.fecha) = none) :
    ((create_reservation threshold db now req token).1 =
        CreateRes.not_allowed "Esta hora no está disponible" ↔
      hora ∈ get_blocked_hours_for_date db fecha) ∧
    ((∃ id large, (create_reservation threshold db now req token).1 =
        CreateRes.success id large) ↔
      (is_booking_allowed db now fecha hora).1 = true) := by
  rcases req with ⟨a, b, c, d, e, f⟩
  simp only at hn ht hp hf hh
  subst hn; subst ht; subst hp; subst hf; subst hh
  by_cases hb : (is_booking_allowed db now fecha hora).1 = true
  · have hsucc : (create_reservation threshold db now
        ⟨some nombre, some telefono, some personas, some fecha, some hora, f⟩ token).1 =
        CreateRes.success db.next_id (is_large_group threshold personas) := by
      simp [create_reservation, hn2, ht2, hp2, hdup, hb]
    rw [hsucc]
    constructor
    · constructor
      · intro hc
        cases hc
      · intro hbl
        have := booking_blocked_result db now fecha hora hbl
        rw [this] at hb
        cases hb
    · constructor
      · intro _
        exact hb
      · intro _
        exact ⟨db.next_id, is_large_group threshold personas, rfl⟩
  · have hb' : (is_booking_allowed db now fecha hora).1 = false := by
      simp only [Bool.not_eq_true] at hb
      exact hb
    have hna : (create_reservation threshold db now
        ⟨some nombre, some telefono, some personas, some fecha, some hora, f⟩ token).1 =
        CreateRes.not_allowed (is_booking_allowed db now fecha hora).2 := by
      simp [create_reservation, hn2, ht2, hp2, hdup, hb']
    rw [hna]
    constructor
    · constructor
      · intro hc
        exact (booking_reason_blocked db now fecha hora).mp (CreateRes.not_allowed.inj hc)
      · intro hbl
        rw [(booking_reason_blocked db now fecha hora).mpr hbl]
    · constructor
      · intro hc
        obtain ⟨i, l, hc⟩ := hc
        cases hc
      · intro hc
        exact absurd hc hb

/-- Request asking for the blocked 21:00 slot on 2026-10-20. -/
def c2w_req : CreateReq :=
  ⟨some "Ana", some "600111222", some 2, some ⟨2026, 10, 20⟩, some ⟨21, 0⟩, none⟩

/-- C2 witness: the amended theorem applied to a blocked hour (rejected with
    the slot-unavailable reason) and to an unblocked off-template hour
    (accepted). -/
theorem create_slot_check_amended_witness :
    (create_reservation 4 c7_db ex_now c2w_req "tokW").1 =
      CreateRes.not_allowed "Esta hora no está disponible" ∧
    (∃ id large, (create_reservation 4 ex_db0 ex_now c2_req "tokC2b").1 =
      CreateRes.success id large) :=
  ⟨(create_slot_check_amended 4 c7_db ex_now c2w_req "tokW" "Ana" "600111222" 2
      ⟨2026, 10, 20⟩ ⟨21, 0⟩ rfl (by decide) rfl (by decide) rfl (by decide) rfl rfl
      (by decide)).1.mpr (by decide),
   (create_slot_check_amended 4 ex_db0 ex_now c2_req "tokC2b" "Ana" "600111222" 2
      ⟨2026, 10, 20⟩ ⟨15, 0⟩ rfl (by decide) rfl (by decide) rfl (by decide) rfl rfl
      (by decide)).2.mpr (by decide)⟩

/-- C8: with all fields present, Create is rejected as a duplicate exactly
    when the database holds an active (`cancelled = 0`), user-confirmed
    reservation dated today or later (by the 'YYYY-MM-DD' string comparison
    of the query) for the same canonicalized phone. -/
theorem duplicate_prevention
    (threshold : Int) (db : Db) (now : DateTime) (req : CreateReq) (token : String)
    (nombre telefono : String) (personas : Int) (fecha : Fecha) (hora : Hora)
    (hn : req.nombre = some nombre) (hn2 : nombre ≠ "")
    (ht : req.telefono = some telefono) (ht2 : telefono ≠ "")
    (hp : req.personas = some personas) (hp2 : personas ≠ 0)
    (hf : req.fecha = some fecha) (hh : req.hora = some hora) :
    (∃ df dh, (create_reservation threshold db now req token).1 =
        CreateRes.duplicate df dh) ↔
      ∃ r ∈ db.reservations, r.telefono = clean_phone_number telefono ∧
        r.user_confirmed = true ∧ r.cancelled = false ∧
        strLe (fmt_fecha now.fecha) (fmt_fecha r.fecha) = true := by
  rcases req with ⟨a, b, c, d, e, f⟩
  simp only at hn ht hp hf hh
  subst hn; subst ht; subst hp; subst hf; subst hh
  cases hfind : db.reservations.find?
      (duplicate_active_pred (clean_phone_number telefono) now.fecha) with
  | some r =>
    have hmem := List.mem_of_find?_eq_some hfind
    have hpred := List.find?_some hfind
    simp only [duplicate_active_pred, Bool.and_eq_true, decide_eq_true_eq,
      Bool.not_eq_true'] at hpred
    constructor
    · intro _
      exact ⟨r, hmem, hpred.1.1.1, hpred.1.1.2, hpred.1.2, hpred.2⟩
    · intro _
      refine ⟨r.fecha, r.hora, ?_⟩
      simp [create_reservation, hn2, ht2, hp2, hfind]
  | none =>
    constructor
    · intro hc
      obtain ⟨df, dh, hc⟩ := hc
      by_cases hb : (is_booking_allowed db now fecha hora).1 = true
      · have : (create_reservation threshold db now
            ⟨some nombre, some telefono, some personas, some fecha, some hora, f⟩ token).1 =
            CreateRes.success db.next_id (is_large_group threshold personas) := by
          simp [create_reservation, hn2, ht2, hp2, hfind, hb]
        rw [this] at hc
        cases hc
      · have hb' : (is_booking_allowed db now fecha hora).1 = false := by
          simp only [Bool.not_eq_true] at hb
          exact hb
        have : (create_reservation threshold db now
            ⟨some nombre, some telefono, some personas, some fecha, some hora, f⟩ token).1 =
            CreateRes.not_allowed (is_booking_allowed db now fecha hora).2 := by
          simp [create_reservation, hn2, ht2, hp2, hfind, hb']
        rw [this] at hc
        cases hc
    · intro hc
      obtain ⟨r, hmem, h1, h2, h3, h4⟩ := hc
      have := List.find?_eq_none.mp hfind r hmem
      simp [duplicate_active_pred, h1, h2, h3, h4] at this

/-- Scenario request: phone '+34 600 000 000', date tomorrow (2026-10-13). -/
def c8_req1 : CreateReq :=
  ⟨some "Maria", some "+34 600 000 000", some 2, some ⟨2026, 10, 13⟩, some ⟨20, 30⟩, none⟩

/-- Scenario request: the same phone in another spelling, a later date. -/
def c8_req2 : CreateReq :=
  ⟨some "Maria", some "+34600000000", some 3, some ⟨2026, 10, 25⟩, some ⟨21, 0⟩, none⟩

/-- Database after creating the first reservation. -/
def c8_db1 : Db := (create_reservation 4 ex_db0 ex_now c8_req1 "tokA").2.1

/-- Database after the customer confirms the first reservation. -/
def c8_db2 : Db := confirm_reservation_db 4 [] c8_db1 ex_now "tokA"

/-- Database after the customer cancels the first reservation via its link
    (its date is tomorrow, so the cancellation link works). -/
def c8_db3 : Db := (cancel_reservation [] c8_db2 ex_now "tokA").2.1

/-- C8 witness: the duplicate-prevention theorem applied to the spec's
    scenario — after create + confirm the second creation for the same
    canonicalized phone is rejected as a duplicate; after cancelling the
    first reservation the same second creation succeeds. -/
theorem duplicate_prevention_witness :
    (∃ df dh, (create_reservation 4 c8_db2 ex_now c8_req2 "tokB").1 =
      CreateRes.duplicate df dh) ∧
    (¬ ∃ df dh, (create_reservation 4 c8_db3 ex_now c8_req2 "tokB").1 =
      CreateRes.duplicate df dh) ∧
    (create_reservation 4 c8_db3 ex_now c8_req2 "tokB").1 = CreateRes.success 2 false :=
  ⟨(duplicate_prevention 4 c8_db2 ex_now c8_req2 "tokB" "Maria" "+34600000000" 3
      ⟨2026, 10, 25⟩ ⟨21, 0⟩ rfl (by decide) rfl (by decide) rfl (by decide) rfl rfl).mpr
      ⟨⟨1, "Maria", "+34600000000", 2, ⟨2026, 10, 13⟩, ⟨20, 30⟩, true, true, false, none,
        none, "tokA", ""⟩, by decide, by decide, by decide, by decide, by decide⟩,
   fun hc => absurd
      ((duplicate_prevention 4 c8_db3 ex_now c8_req2 "tokB" "Maria" "+34600000000" 3
        ⟨2026, 10, 25⟩ ⟨21, 0⟩ rfl (by decide) rfl (by decide) rfl (by decide) rfl rfl).mp hc)
      (by decide),
   by decide⟩

/-- Fully confirmed reservation on Monday 2025-03-03. -/
def c4_res1 : Reservation :=
  ⟨1, "Ana", "+34600000001", 2, ⟨2025, 3, 3⟩, ⟨20, 30⟩, true, true, false, none, none,
    "tokP", ""⟩

/-- Fully confirmed reservation on Monday 2031-03-03 — six years later, same
    weekday, day and month, hence the same year-less date header. -/
def c4_res2 : Reservation :=
  ⟨2, "Luz", "+34600000002", 2, ⟨2031, 3, 3⟩, ⟨21, 0⟩, true, true, false, none, none,
    "tokQ", ""⟩

/-- Database holding the two colliding reservations. -/
def c4_db : Db := ⟨[c4_res1, c4_res2], [], [], 3⟩

/-- UTC date for the bot's `date('now')`. -/
def c4_today : Fecha := ⟨2025, 1, 2⟩

/-- Local instant for the bot's `datetime.now()`. -/
def c4_now : DateTime := ⟨⟨2025, 1, 2⟩, ⟨10, 0⟩, 0⟩

/-- C4 counterexample: the date headers carry no year, so the two distinct
    dates 2025-03-03 and 2031-03-03 render the identical header
    '═══ Lunes · 03 Mar ═══'.  After one rebuild of the confirmed channel the
    scanner resets the header group at its second occurrence and reads back
    only the second reservation, the observed state differs from the desired
    state, and the immediately following reconciliation run performs further
    writes instead of zero. -/
theorem reconciliation_counterexample :
    date_header ⟨2025, 3, 3⟩ = date_header ⟨2031, 3, 3⟩ ∧
    (⟨2025, 3, 3⟩ : Fecha) ≠ ⟨2031, 3, 3⟩ ∧
    states_match
      (get_channel_state
        (sync_channel_with_headers c4_db c4_today c4_now SType.confirmed []).1)
      (get_database_state c4_db c4_today c4_now SType.confirmed) = false ∧
    (sync_channel_with_headers c4_db c4_today c4_now SType.confirmed
      (sync_channel_with_headers c4_db c4_today c4_now SType.confirmed []).1).2 ≠ 0 := by
  decide

/-- A list is a prefix of itself followed by anything. -/
theorem isPrefOf_append_self (p rest : List Char) : isPrefOf p (p ++ rest) = true := by
  induction p with
  | nil => rfl
  | cons a as ih => simp [isPrefOf, ih]

/-- A prefix occurrence is an occurrence. -/
theorem hasSub_of_isPrefOf (p s : List Char) (h : isPrefOf p s = true) :
    hasSub p s = true := by
  cases s with
  | nil =>
    cases p with
    | nil => rfl
    | cons a as => simp [isPrefOf] at h
  | cons c rest => simp [hasSub, h]

/-- A string starting with `pat` contains `pat`. -/
theorem hasSub_append_self (p rest : List Char) : hasSub p (p ++ rest) = true :=
  hasSub_of_isPrefOf p (p ++ rest) (isPrefOf_append_self p rest)

/-- A string containing a non-empty pattern is itself non-empty. -/
theorem ne_empty_of_hasSub (s pat : String) (hp : pat.data ≠ [])
    (h : strHasSub s pat = true) : s ≠ "" := by
  intro he
  subst he
  unfold strHasSub at h
  cases hpd : pat.data with
  | nil => exact hp hpd
  | cons a l =>
    rw [hpd] at h
    simp [hasSub, List.isEmpty] at h

/-- Every confirmed/pending date header contains the '═══' marker. -/
theorem date_header_has_marker (f : Fecha) : strHasSub (date_header f) "═══" = true := by
  apply hasSub_of_isPrefOf
  rfl

/-- Every today header contains the '🌟' marker. -/
theorem today_header_has_star (f : Fecha) : strHasSub (today_header f) "🌟" = true := by
  apply hasSub_of_isPrefOf
  rfl

/-- Date headers are non-empty strings. -/
theorem date_header_ne_empty (f : Fecha) : date_header f ≠ "" :=
  ne_empty_of_hasSub _ "═══" (by decide) (date_header_has_marker f)

/-- Today headers are non-empty strings. -/
theorem today_header_ne_empty (f : Fecha) : today_header f ≠ "" :=
  ne_empty_of_hasSub _ "🌟" (by decide) (today_header_has_star f)

/-- Card footers start with '📞 ', hence are non-empty. -/
theorem card_footer_ne_empty (r : Reservation) : card_footer r ≠ "" :=
  ne_empty_of_hasSub _ "📞" (by decide) (by
    apply hasSub_of_isPrefOf
    rfl)

/-- The scanner ignores a message without embeds. -/
theorem scan_step_plain (acc : List (String × List Nat) × Option String) :
    channel_scan_step acc no_reservations_msg = acc := rfl

/-- The scanner reads a date-header message as a header: it resets that
    header's group and makes it current. -/
theorem scan_step_header (d : List (String × List Nat)) (cur : Option String) (f : Fecha) :
    channel_scan_step (d, cur) (header_msg f) =
      (dict_set d (date_header f) [], some (date_header f)) := by
  unfold channel_scan_step header_msg
  simp [date_header_ne_empty f, date_header_has_marker f]

/-- The scanner reads a today-header message as a header, provided the
    header does not accidentally contain the '═══' marker. -/
theorem scan_step_today_header (d : List (String × List Nat)) (cur : Option String)
    (f : Fecha) (total : Nat)
    (hne : strHasSub (today_header f) "═══" = false) :
    channel_scan_step (d, cur) (today_header_msg f total) =
      (dict_set d (today_header f) [], some (today_header f)) := by
  unfold channel_scan_step today_header_msg
  simp [today_header_ne_empty f, today_header_has_star f, hne]

/-- The scanner reads a reservation card as a card: when the card's title
    contains neither header marker and its footer parses back to the
    reservation's id, the id is appended to the current group. -/
theorem scan_step_card (d : List (String × List Nat)) (k : String) (sty : String)
    (r : Reservation)
    (h1 : strHasSub (card_title sty r) "═══" = false)
    (h2 : strHasSub (card_title sty r) "🌟" = false)
    (h3 : extract_res_id (card_footer r) = some r.id) :
    channel_scan_step (d, some k) (card_msg sty r) = (dict_append d k r.id, some k) := by
  unfold channel_scan_step card_msg create_reservation_embed
  simp [h1, h2, h3, card_footer_ne_empty r]

/-- Mapping a function that fixes every element is the identity. -/
theorem map_id_of_forall {α : Type} (l : List α) (f : α → α) (h : ∀ x ∈ l, f x = x) :
    l.map f = l := by
  induction l with
  | nil => rfl
  | cons a as ih =>
    rw [List.map_cons, h a (List.mem_cons_self a as),
      ih (fun x hx => h x (List.mem_cons_of_mem a hx))]

/-- Setting a fresh key appends the entry. -/
theorem dict_set_fresh (d : List (String × List Nat)) (k : String) (v : List Nat)
    (hk : ∀ e ∈ d, e.1 ≠ k) : dict_set d k v = d ++ [(k, v)] := by
  unfold dict_set
  have hany : d.any (fun e => decide (e.1 = k)) = false := by
    rw [List.any_eq_false]
    intro e he
    simp [hk e he]
  simp [hany]

/-- Appending an id to the last entry, whose key is fresh with respect to the
    rest of the dictionary. -/
theorem dict_append_append (d : List (String × List Nat)) (k : String) (v : List Nat)
    (i : Nat) (hk : ∀ e ∈ d, e.1 ≠ k) :
    dict_append (d ++ [(k, v)]) k i = d ++ [(k, v ++ [i])] := by
  unfold dict_append
  have hany : (d ++ [(k, v)]).any (fun e => decide (e.1 = k)) = true := by
    simp [List.any_append]
  simp only [hany, if_true]
  rw [List.map_append]
  congr 1
  · exact map_id_of_forall d _ (fun e he => if_neg (hk e he))
  · simp

/-- Folding id-appends into the last entry accumulates them there. -/
theorem dict_append_fold (d : List (String × List Nat)) (k : String)
    (hk : ∀ e ∈ d, e.1 ≠ k) (l : List Nat) : ∀ v : List Nat,
    l.foldl (fun acc i => dict_append acc k i) (d ++ [(k, v)]) = d ++ [(k, v ++ l)] := by
  induction l with
  | nil => intro v; simp
  | cons i l ih =>
    intro v
    simp only [List.foldl_cons]
    rw [dict_append_append d k v i hk, ih (v ++ [i])]
    simp

/-- Membership through the `dedupFirst` fold. -/
theorem dedupFirst_go_mem {α : Type} [DecidableEq α] (l : List α) : ∀ (acc : List α) (y : α),
    y ∈ l.foldl (fun acc x => if x ∈ acc then acc else acc ++ [x]) acc ↔
      y ∈ acc ∨ y ∈ l := by
  induction l with
  | nil => intro acc y; simp
  | cons a l ih =>
    intro acc y
    simp only [List.foldl_cons]
    by_cases h : a ∈ acc
    · rw [if_pos h, ih]
      constructor
      · rintro (hy | hy)
        · exact Or.inl hy
        · exact Or.inr (List.mem_cons_of_mem a hy)
      · rintro (hy | hy)
        · exact Or.inl hy
        · rcases List.mem_cons.mp hy with rfl | hy2
          · exact Or.inl h
          · exact Or.inr hy2
    · rw [if_neg h, ih]
      simp [List.mem_append, List.mem_cons, or_assoc]

/-- Membership in `dedupFirst`. -/
theorem dedupFirst_mem {α : Type} [DecidableEq α] (l : List α) (y : α) :
    y ∈ dedupFirst l ↔ y ∈ l := by
  unfold dedupFirst
  rw [dedupFirst_go_mem]
  simp

/-- The `dedupFirst` fold preserves distinctness of the accumulator. -/
theorem dedupFirst_go_nodup {α : Type} [DecidableEq α] (l : List α) : ∀ acc : List α,
    acc.Nodup → (l.foldl (fun acc x => if x ∈ acc then acc else acc ++ [x]) acc).Nodup := by
  induction l with
  | nil => intro acc hacc; exact hacc
  | cons a l ih =>
    intro acc hacc
    simp only [List.foldl_cons]
    by_cases h : a ∈ acc
    · rw [if_pos h]; exact ih acc hacc
    · rw [if_neg h]
      refine ih (acc ++ [a]) ?_
      rw [← List.concat_eq_append]
      exact List.Nodup.concat h hacc

/-- `dedupFirst` produces distinct elements. -/
theorem dedupFirst_nodup {α : Type} [DecidableEq α] (l : List α) : (dedupFirst l).Nodup :=
  dedupFirst_go_nodup l [] List.nodup_nil

/-- One more element at the end of a `dedupFirst`. -/
theorem dedupFirst_append_singleton {α : Type} [DecidableEq α] (l : List α) (x : α) :
    dedupFirst (l ++ [x]) =
      if x ∈ dedupFirst l then dedupFirst l else dedupFirst l ++ [x] := by
  unfold dedupFirst
  rw [List.foldl_append]
  rfl

/-- `dedupFirst` keeps a subsequence of the original order. -/
theorem dedupFirst_sublist {α : Type} [DecidableEq α] (l : List α) :
    List.Sublist (dedupFirst l) l := by
  induction l using List.reverseRecOn with
  | nil => simp [dedupFirst]
  | append_singleton l x ih =>
    rw [dedupFirst_append_singleton]
    by_cases h : x ∈ dedupFirst l
    · rw [if_pos h]
      exact ih.trans (List.sublist_append_left l [x])
    · rw [if_neg h]
      exact List.Sublist.append ih (List.Sublist.refl [x])

/-- `dedupFirst` commutes with an injective-on-the-list map. -/
theorem dedupFirst_map {α β : Type} [DecidableEq α] [DecidableEq β] (g : α → β)
    (l : List α) (hg : ∀ x ∈ l, ∀ y ∈ l, g x = g y → x = y) :
    dedupFirst (l.map g) = (dedupFirst l).map g := by
  induction l using List.reverseRecOn with
  | nil => simp [dedupFirst]
  | append_singleton l x ih =>
    rw [List.map_append, List.map_singleton, dedupFirst_append_singleton,
      dedupFirst_append_singleton,
      ih (fun a ha b hb => hg a (List.mem_append_left _ ha) b (List.mem_append_left _ hb))]
    have hmem : g x ∈ (dedupFirst l).map g ↔ x ∈ dedupFirst l := by
      constructor
      · intro hm
        obtain ⟨y, hy, he⟩ := List.mem_map.mp hm
        have hy' : y ∈ l := (dedupFirst_mem l y).mp hy
        have : y = x := hg y (List.mem_append_left _ hy') x
          (List.mem_append_right _ (List.mem_singleton_self x)) he
        rw [← this]
        exact hy
      · intro hm
        exact List.mem_map_of_mem g hm
    by_cases h : x ∈ dedupFirst l
    · rw [if_pos h, if_pos (hmem.mpr h)]
    · rw [if_neg h, if_neg (fun hc => h (hmem.mp hc)), List.map_append,
        List.map_singleton]

/-- Conditions under which the scanner reads a rendered card back correctly:
    no header marker in its title, and a footer that parses to its id. -/
def card_scannable (sty : String) (r : Reservation) : Prop :=
  strHasSub (card_title sty r) "═══" = false ∧
  strHasSub (card_title sty r) "🌟" = false ∧
  extract_res_id (card_footer r) = some r.id

/-- Scanning a run of rendered cards appends their ids to the current
    group. -/
theorem scan_cards (sty : String) (rs : List Reservation)
    (hc : ∀ r ∈ rs, card_scannable sty r) :
    ∀ (d : List (String × List Nat)) (k : String),
    (rs.map (card_msg sty)).foldl channel_scan_step (d, some k) =
      ((rs.map (·.id)).foldl (fun acc i => dict_append acc k i) d, some k) := by
  induction rs with
  | nil => intro d k; rfl
  | cons r rs ih =>
    intro d k
    obtain ⟨h1, h2, h3⟩ := hc r (List.mem_cons_self r rs)
    simp only [List.map_cons, List.foldl_cons]
    rw [scan_step_card d k sty r h1 h2 h3]
    exact ih (fun x hx => hc x (List.mem_cons_of_mem r hx)) _ _

/-- Scanning one header-plus-cards section appends one fresh group holding
    exactly the section's ids, in order. -/
theorem scan_section (sty : String) (f : Fecha) (rs : List Reservation)
    (hc : ∀ r ∈ rs, card_scannable sty r)
    (d : List (String × List Nat)) (cur : Option String)
    (hk : ∀ e ∈ d, e.1 ≠ date_header f) :
    (header_msg f :: rs.map (card_msg sty)).foldl channel_scan_step (d, cur) =
      (d ++ [(date_header f, rs.map (·.id))], some (date_header f)) := by
  simp only [List.foldl_cons]
  rw [scan_step_header d cur f, dict_set_fresh d _ [] hk, scan_cards sty rs hc,
    dict_append_fold d _ hk (rs.map (·.id)) []]
  simp

/-- Scanning a sequence of sections with pairwise distinct, fresh headers
    appends one group per section. -/
theorem scan_sections (sty : String) (rows : List Reservation)
    (hc : ∀ r ∈ rows, card_scannable sty r) :
    ∀ (ks : List Fecha) (d : List (String × List Nat)) (cur : Option String),
    ks.Pairwise (fun a b => date_header a ≠ date_header b) →
    (∀ f ∈ ks, ∀ e ∈ d, e.1 ≠ date_header f) →
    (((ks.map (fun f =>
        header_msg f :: (rows.filter (fun r => decide (r.fecha = f))).map
          (card_msg sty))).flatten).foldl channel_scan_step (d, cur)).1 =
      d ++ ks.map (fun f =>
        (date_header f,
          (rows.filter (fun r => decide (r.fecha = f))).map (·.id))) := by
  intro ks
  induction ks with
  | nil => intro d cur _ _; simp
  | cons f ks ih =>
    intro d cur hpw hfresh
    simp only [List.map_cons, List.flatten_cons, List.foldl_append]
    rw [scan_section sty f _
      (fun r hr => hc r (List.mem_of_mem_filter hr)) d cur
      (fun e he => hfresh f (List.mem_cons_self f ks) e he)]
    rw [ih (d ++ [(date_header f, _)]) (some (date_header f)) hpw.of_cons ?_]
    · simp
    · intro f' hf' e he
      rcases List.mem_append.mp he with he1 | he1
      · exact hfresh f' (List.mem_cons_of_mem f hf') e he1
      · rw [List.mem_singleton.mp he1]
        exact (List.rel_of_pairwise_cons hpw hf')

/-- The desired-state fold groups ids under first-occurrence header keys:
    each key of the `defaultdict` maps to the ids of all rows rendering that
    header, in row order. -/
theorem fold_dict_append_eq (rows : List Reservation) :
    rows.foldl (fun acc r => dict_append acc (date_header r.fecha) r.id) [] =
      (dedupFirst (rows.map (fun r => date_header r.fecha))).map
        (fun k => (k,
          (rows.filter (fun r => decide (date_header r.fecha = k))).map (·.id))) := by
  induction rows using List.reverseRecOn with
  | nil => rfl
  | append_singleton rows r ih =>
    rw [List.foldl_append, List.foldl_cons, List.foldl_nil, ih, List.map_append,
      List.map_singleton, dedupFirst_append_singleton]
    by_cases hmem : date_header r.fecha ∈ dedupFirst (rows.map (fun x => date_header x.fecha))
    · rw [if_pos hmem]
      unfold dict_append
      have hany : ((dedupFirst (rows.map (fun x => date_header x.fecha))).map
          (fun k => (k, (rows.filter
            (fun x => decide (date_header x.fecha = k))).map (·.id)))).any
          (fun e => decide (e.1 = date_header r.fecha)) = true := by
        rw [List.any_eq_true]
        exact ⟨_, List.mem_map_of_mem _ hmem, by simp⟩
      rw [if_pos hany, List.map_map]
      apply List.map_congr_left
      intro k hk
      by_cases hkk : k = date_header r.fecha
      · subst hkk
        simp [List.filter_append]
      · have : ¬ (k, (rows.filter
            (fun x => decide (date_header x.fecha = k))).map (·.id)).1 = date_header r.fecha := hkk
        simp only [Function.comp_apply, if_neg this]
        rw [List.filter_append]
        have : (([r] : List Reservation).filter
            (fun x => decide (date_header x.fecha = k))) = [] := by
          simp [List.filter_eq_nil_iff]
          intro hcon
          exact hkk (hcon ▸ rfl)
        rw [this]
        simp
    · rw [if_neg hmem]
      unfold dict_append
      have hany : ((dedupFirst (rows.map (fun x => date_header x.fecha))).map
          (fun k => (k, (rows.filter
            (fun x => decide (date_header x.fecha = k))).map (·.id)))).any
          (fun e => decide (e.1 = date_header r.fecha)) = false := by
        rw [List.any_eq_false]
        intro e he
        obtain ⟨k, hk, rfl⟩ := List.mem_map.mp he
        simp only [decide_eq_true_eq]
        intro hcon
        exact hmem (hcon ▸ hk)
      rw [if_neg (by simp [hany]), List.map_append, List.map_singleton]
      congr 1
      · apply List.map_congr_left
        intro k hk
        rw [List.filter_append]
        have : (([r] : List Reservation).filter
            (fun x => decide (date_header x.fecha = k))) = [] := by
          simp [List.filter_eq_nil_iff]
          intro hcon
          exact hmem (hcon ▸ hk)
        rw [this]
        simp
      · have hnil : (rows.filter
            (fun x => decide (date_header x.fecha = date_header r.fecha))) = [] := by
          rw [List.filter_eq_nil_iff]
          intro a ha
          simp only [decide_eq_true_eq]
          intro hcon
          have hmm2 := List.mem_map_of_mem (fun x => date_header x.fecha) ha
          simp only at hmm2
          rw [hcon] at hmm2
          exact hmem ((dedupFirst_mem _ _).mpr hmm2)
        simp [List.filter_append, hnil]

/-- Under header injectivity the desired-state fold is the per-date grouping
    in first-occurrence date order. -/
theorem db_state_grouped (rows : List Reservation)
    (hinj : ∀ r ∈ rows, ∀ r' ∈ rows,
      date_header r.fecha = date_header r'.fecha → r.fecha = r'.fecha) :
    rows.foldl (fun acc r => dict_append acc (date_header r.fecha) r.id) [] =
      (dedupFirst (rows.map (·.fecha))).map
        (fun f => (date_header f,
          (rows.filter (fun r => decide (r.fecha = f))).map (·.id))) := by
  rw [fold_dict_append_eq]
  have hg : ∀ x ∈ rows.map (·.fecha), ∀ y ∈ rows.map (·.fecha),
      date_header x = date_header y → x = y := by
    intro x hx y hy he
    obtain ⟨rx, hrx, hex⟩ := List.mem_map.mp hx
    obtain ⟨ry, hry, hey⟩ := List.mem_map.mp hy
    rw [← hex, ← hey]
    exact hinj rx hrx ry hry (by rw [hex, hey]; exact he)
  have hmapmap : rows.map (fun r => date_header r.fecha) =
      (rows.map (·.fecha)).map date_header := by
    rw [List.map_map]
    rfl
  rw [hmapmap, dedupFirst_map date_header (rows.map (·.fecha)) hg, List.map_map]
  apply List.map_congr_left
  intro f hf
  have hf' : f ∈ rows.map (·.fecha) := (dedupFirst_mem _ _).mp hf
  obtain ⟨rf, hrf, hfe⟩ := List.mem_map.mp hf'
  simp only [Function.comp_apply]
  congr 1
  apply congrArg
  apply List.filter_congr
  intro a ha
  rcases Decidable.em (a.fecha = f) with he | hne
  · simp [he]
  · have : ¬ date_header a.fecha = date_header f := by
      intro hcon
      apply hne
      rw [← hfe] at hcon ⊢
      exact hinj a ha rf hrf hcon
    simp [hne, this]

/-- In a dictionary with distinct keys, lookup of a member entry's key yields
    that entry's value. -/
theorem dict_get_of_mem (s : List (String × List Nat)) (e : String × List Nat)
    (he : e ∈ s) (h : (dict_keys s).Nodup) : dict_get s e.1 = e.2 := by
  induction s with
  | nil => cases he
  | cons a s ih =>
    rcases List.mem_cons.mp he with rfl | he2
    · unfold dict_get
      rw [List.find?_cons_of_pos _ (by simp)]
    · have hkeys : (dict_keys (a :: s)) = a.1 :: dict_keys s := rfl
      rw [hkeys] at h
      have hne : a.1 ≠ e.1 := by
        intro hcon
        have hmem : e.1 ∈ dict_keys s := List.mem_map_of_mem _ he2
        rw [← hcon] at hmem
        exact (List.nodup_cons.mp h).1 hmem
      unfold dict_get
      rw [List.find?_cons_of_neg _ (by simp [hne])]
      exact ih he2 (List.nodup_cons.mp h).2

/-- A dictionary with distinct keys matches itself. -/
theorem states_match_self (s : List (String × List Nat))
    (h : (dict_keys s).Nodup) : states_match s s = true := by
  unfold states_match
  rw [Bool.and_eq_true]
  constructor
  · simp
  · rw [List.all_eq_true]
    intro e he
    rw [dict_get_of_mem s e he h]
    simp

/-- Scanning the rendered confirmed/pending sections reproduces the
    desired-state fold, given scannable cards, injective headers, and the
    row order the SQL query provides. -/
theorem parse_render_sections (sty : String) (rows : List Reservation)
    (hc : ∀ r ∈ rows, card_scannable sty r)
    (hinj : ∀ r ∈ rows, ∀ r' ∈ rows,
      date_header r.fecha = date_header r'.fecha → r.fecha = r'.fecha)
    (hsorted : rows.Sorted row_le_fh) :
    ((((List.insertionSort fecha_str_le (dedupFirst (rows.map (·.fecha)))).map
        (fun f => header_msg f :: (rows.filter (fun r => decide (r.fecha = f))).map
          (card_msg sty))).flatten).foldl channel_scan_step ([], none)).1 =
      rows.foldl (fun acc r => dict_append acc (date_header r.fecha) r.id) [] := by
  have hsorted_f : (rows.map (·.fecha)).Pairwise fecha_str_le :=
    List.pairwise_map.mpr (hsorted.imp (fun h => h.1))
  have hsorted_d : (dedupFirst (rows.map (·.fecha))).Pairwise fecha_str_le :=
    hsorted_f.sublist (dedupFirst_sublist _)
  have hkeys : List.insertionSort fecha_str_le (dedupFirst (rows.map (·.fecha))) =
      dedupFirst (rows.map (·.fecha)) := List.Sorted.insertionSort_eq hsorted_d
  rw [hkeys]
  have hmemf : ∀ f ∈ dedupFirst (rows.map (·.fecha)), ∃ r ∈ rows, r.fecha = f := by
    intro f hf
    obtain ⟨r, hr, he⟩ := List.mem_map.mp ((dedupFirst_mem _ _).mp hf)
    exact ⟨r, hr, he⟩
  have hpw : (dedupFirst (rows.map (·.fecha))).Pairwise
      (fun a b => date_header a ≠ date_header b) := by
    refine List.Pairwise.imp_of_mem (fun {a b} ha hb hne => ?_) (dedupFirst_nodup _)
    intro hcon
    obtain ⟨ra, hra, hea⟩ := hmemf a ha
    obtain ⟨rb, hrb, heb⟩ := hmemf b hb
    apply hne
    rw [← hea, ← heb]
    exact hinj ra hra rb hrb (by rw [hea, heb]; exact hcon)
  rw [scan_sections sty rows hc _ [] none hpw (by intro f _ e he; cases he)]
  rw [db_state_grouped rows hinj]
  simp

/-- Key distinctness of the grouped desired state. -/
theorem grouped_keys_nodup (rows : List Reservation)
    (hinj : ∀ r ∈ rows, ∀ r' ∈ rows,
      date_header r.fecha = date_header r'.fecha → r.fecha = r'.fecha) :
    (dict_keys ((dedupFirst (rows.map (·.fecha))).map
      (fun f => (date_header f,
        (rows.filter (fun r => decide (r.fecha = f))).map (·.id))))).Nodup := by
  have hmemf : ∀ f ∈ dedupFirst (rows.map (·.fecha)), ∃ r ∈ rows, r.fecha = f := by
    intro f hf
    obtain ⟨r, hr, he⟩ := List.mem_map.mp ((dedupFirst_mem _ _).mp hf)
    exact ⟨r, hr, he⟩
  have hkeys : dict_keys ((dedupFirst (rows.map (·.fecha))).map
      (fun f => (date_header f,
        (rows.filter (fun r => decide (r.fecha = f))).map (·.id)))) =
      (dedupFirst (rows.map (·.fecha))).map date_header := by
    unfold dict_keys
    rw [List.map_map]
    rfl
  rw [hkeys]
  refine List.Nodup.map_on ?_ (dedupFirst_nodup _)
  intro x hx y hy he
  obtain ⟨rx, hrx, hex⟩ := hmemf x hx
  obtain ⟨ry, hry, hey⟩ := hmemf y hy
  rw [← hex, ← hey]
  exact hinj rx hrx ry hry (by rw [hex, hey]; exact he)

instance (sty : String) (r : Reservation) : Decidable (card_scannable sty r) := by
  unfold card_scannable
  infer_instance

/-- Key distinctness of every desired state under header injectivity. -/
theorem db_state_keys_nodup (db : Db) (today_utc : Fecha) (now_local : DateTime)
    (st : SType)
    (hinj : ∀ r ∈ bot_query db today_utc st, ∀ r' ∈ bot_query db today_utc st,
      date_header r.fecha = date_header r'.fecha → r.fecha = r'.fecha) :
    (dict_keys (get_database_state db today_utc now_local st)).Nodup := by
  cases st with
  | today =>
    unfold get_database_state
    by_cases hempty : (bot_query db today_utc SType.today).isEmpty
    · simp [hempty, dict_keys]
    · simp [hempty, dict_keys]
  | confirmed =>
    have h2 : get_database_state db today_utc now_local SType.confirmed =
        (bot_query db today_utc SType.confirmed).foldl
          (fun acc r => dict_append acc (date_header r.fecha) r.id) [] := rfl
    rw [h2, db_state_grouped _ hinj]
    exact grouped_keys_nodup _ hinj
  | pending =>
    have h2 : get_database_state db today_utc now_local SType.pending =
        (bot_query db today_utc SType.pending).foldl
          (fun acc r => dict_append acc (date_header r.fecha) r.id) [] := rfl
    rw [h2, db_state_grouped _ hinj]
    exact grouped_keys_nodup _ hinj

/-- Scanning a freshly rebuilt channel reproduces the desired state. -/
theorem parse_render (db : Db) (today_utc : Fecha) (now_local : DateTime) (st : SType)
    (hlen : (render_rebuild db today_utc now_local st).length ≤ 200)
    (htoday : strHasSub (today_header now_local.fecha) "═══" = false)
    (hcards : ∀ r ∈ bot_query db today_utc st, card_scannable (stype_str st) r)
    (hinj : ∀ r ∈ bot_query db today_utc st, ∀ r' ∈ bot_query db today_utc st,
      date_header r.fecha = date_header r'.fecha → r.fecha = r'.fecha) :
    get_channel_state (render_rebuild db today_utc now_local st) =
      get_database_state db today_utc now_local st := by
  unfold get_channel_state
  rw [List.take_of_length_le hlen]
  cases st with
  | today =>
    by_cases hempty : (bot_query db today_utc SType.today).isEmpty
    · have h1 : render_rebuild db today_utc now_local SType.today =
          [no_reservations_msg] := by
        unfold render_rebuild
        rw [if_pos hempty]
      have h2 : get_database_state db today_utc now_local SType.today = [] := by
        unfold get_database_state
        simp [hempty]
      rw [h1, h2]
      rfl
    · have h1 : render_rebuild db today_utc now_local SType.today =
          today_header_msg now_local.fecha (bot_query db today_utc SType.today).length ::
            (bot_query db today_utc SType.today).map (card_msg "today") := by
        unfold render_rebuild
        rw [if_neg (by simp [hempty])]
      have h2 : get_database_state db today_utc now_local SType.today =
          [(today_header now_local.fecha,
            (bot_query db today_utc SType.today).map (·.id))] := by
        show (if (bot_query db today_utc SType.today).isEmpty then
            ([] : List (String × List Nat))
          else [(today_header now_local.fecha,
            (bot_query db today_utc SType.today).map (·.id))]) =
          [(today_header now_local.fecha,
            (bot_query db today_utc SType.today).map (·.id))]
        rw [if_neg hempty]
      rw [h1, h2, List.foldl_cons,
        scan_step_today_header [] none now_local.fecha _ htoday,
        dict_set_fresh [] _ [] (by intro e he; cases he)]
      rw [scan_cards "today" _ hcards,
        dict_append_fold [] _ (by intro e he; cases he) _ []]
      simp
  | confirmed =>
    by_cases hempty : (bot_query db today_utc SType.confirmed).isEmpty
    · have hrows0 : bot_query db today_utc SType.confirmed = [] :=
        List.isEmpty_iff.mp hempty
      have h1 : render_rebuild db today_utc now_local SType.confirmed =
          [no_reservations_msg] := by
        unfold render_rebuild
        rw [if_pos hempty]
      have h2 : get_database_state db today_utc now_local SType.confirmed = [] := by
        unfold get_database_state
        rw [hrows0]
        rfl
      rw [h1, h2]
      rfl
    · have h1 : render_rebuild db today_utc now_local SType.confirmed =
          ((List.insertionSort fecha_str_le
            (dedupFirst ((bot_query db today_utc SType.confirmed).map (·.fecha)))).map
            (fun f => header_msg f ::
              ((bot_query db today_utc SType.confirmed).filter
                (fun r => decide (r.fecha = f))).map
                (card_msg (stype_str SType.confirmed)))).flatten := by
        unfold render_rebuild
        rw [if_neg (by simp [hempty])]
      have h2 : get_database_state db today_utc now_local SType.confirmed =
          (bot_query db today_utc SType.confirmed).foldl
            (fun acc r => dict_append acc (date_header r.fecha) r.id) [] := rfl
      rw [h1, h2]
      exact parse_render_sections (stype_str SType.confirmed) _ hcards hinj
        (List.sorted_insertionSort row_le_fh _)
  | pending =>
    by_cases hempty : (bot_query db today_utc SType.pending).isEmpty
    · have hrows0 : bot_query db today_utc SType.pending = [] :=
        List.isEmpty_iff.mp hempty
      have h1 : render_rebuild db today_utc now_local SType.pending =
          [no_reservations_msg] := by
        unfold render_rebuild
        rw [if_pos hempty]
      have h2 : get_database_state db today_utc now_local SType.pending = [] := by
        unfold get_database_state
        rw [hrows0]
        rfl
      rw [h1, h2]
      rfl
    · have h1 : render_rebuild db today_utc now_local SType.pending =
          ((List.insertionSort fecha_str_le
            (dedupFirst ((bot_query db today_utc SType.pending).map (·.fecha)))).map
            (fun f => header_msg f ::
              ((bot_query db today_utc SType.pending).filter
                (fun r => decide (r.fecha = f))).map
                (card_msg (stype_str SType.pending)))).flatten := by
        unfold render_rebuild
        rw [if_neg (by simp [hempty])]
      have h2 : get_database_state db today_utc now_local SType.pending =
          (bot_query db today_utc SType.pending).foldl
            (fun acc r => dict_append acc (date_header r.fecha) r.id) [] := rfl
      rw [h1, h2]
      exact parse_render_sections (stype_str SType.pending) _ hcards hinj
        (List.sorted_insertionSort row_le_fh _)

/-- When the observed state already matches, the sync pass does nothing. -/
theorem sync_eq_of_match (db : Db) (today_utc : Fecha) (now_local : DateTime)
    (st : SType) (channel : List Msg)
    (hm : states_match (get_channel_state channel)
      (get_database_state db today_utc now_local st) = true) :
    sync_channel_with_headers db today_utc now_local st channel = (channel, 0) := by
  unfold sync_channel_with_headers
  simp [hm]

/-- When the observed state differs, the sync pass purges (up to 200
    messages) and posts the rebuild. -/
theorem sync_eq_of_mismatch (db : Db) (today_utc : Fecha) (now_local : DateTime)
    (st : SType) (channel : List Msg)
    (hm : states_match (get_channel_state channel)
      (get_database_state db today_utc now_local st) = false) :
    sync_channel_with_headers db today_utc now_local st channel =
      (channel.take (channel.length - 200) ++ render_rebuild db today_utc now_local st,
        min channel.length 200 + (render_rebuild db today_utc now_local st).length) := by
  unfold sync_channel_with_headers
  simp [hm]

/-- C4.  Amended reconciliation idempotence: provided the channel and the
    rebuild fit in the 200-message scan/purge window, the today header
    carries no date-header marker, every rendered card scans back to its
    reservation id with no header marker in its title, and distinct
    reservation dates always render distinct date headers, one sync pass
    leaves the channel parsing back exactly to the desired state, and an
    immediately following pass with no intervening mutation detects the
    match and performs zero writes.  (Unconditionally the claim is false:
    `reconciliation_counterexample` exhibits two reservations six years
    apart whose year-less headers collide, after which every pass rewrites
    the channel.) -/
theorem reconciliation_idempotent (db : Db) (today_utc : Fecha) (now_local : DateTime)
    (st : SType) (channel : List Msg)
    (hch : channel.length ≤ 200)
    (hlen : (render_rebuild db today_utc now_local st).length ≤ 200)
    (htoday : strHasSub (today_header now_local.fecha) "═══" = false)
    (hcards : ∀ r ∈ bot_query db today_utc st, card_scannable (stype_str st) r)
    (hinj : ∀ r ∈ bot_query db today_utc st, ∀ r' ∈ bot_query db today_utc st,
      date_header r.fecha = date_header r'.fecha → r.fecha = r'.fecha) :
    states_match
      (get_channel_state (sync_channel_with_headers db today_utc now_local st channel).1)
      (get_database_state db today_utc now_local st) = true ∧
    sync_channel_with_headers db today_utc now_local st
      (sync_channel_with_headers db today_utc now_local st channel).1 =
      ((sync_channel_with_headers db today_utc now_local st channel).1, 0) := by
  have hkey := db_state_keys_nodup db today_utc now_local st hinj
  have hmatch1 : states_match
      (get_channel_state (sync_channel_with_headers db today_utc now_local st channel).1)
      (get_database_state db today_utc now_local st) = true := by
    by_cases hm : states_match (get_channel_state channel)
        (get_database_state db today_utc now_local st) = true
    · rw [sync_eq_of_match db today_utc now_local st channel hm]
      exact hm
    · rw [sync_eq_of_mismatch db today_utc now_local st channel
        (Bool.not_eq_true _ ▸ Bool.of_not_eq_true hm)]
      have h0 : channel.length - 200 = 0 := by omega
      rw [h0, List.take_zero, List.nil_append,
        parse_render db today_utc now_local st hlen htoday hcards hinj]
      exact states_match_self _ hkey
  exact ⟨hmatch1, sync_eq_of_match db today_utc now_local st _ hmatch1⟩

def c4w_res1 : Reservation :=
  ⟨1, "Ana", "+34600000001", 2, ⟨2026, 10, 20⟩, ⟨20, 30⟩, true, true, false, none, none,
    "tokW1", ""⟩

def c4w_res2 : Reservation :=
  ⟨2, "Bea", "+34600000002", 4, ⟨2026, 10, 21⟩, ⟨13, 0⟩, true, true, false, none, none,
    "tokW2", ""⟩

def c4w_db : Db := ⟨[c4w_res1, c4w_res2], [], [], 3⟩

def c4w_now : DateTime := ⟨⟨2026, 10, 12⟩, ⟨10, 0⟩, 0⟩

theorem reconciliation_idempotent_witness :
    states_match
      (get_channel_state
        (sync_channel_with_headers c4w_db ⟨2026, 10, 12⟩ c4w_now SType.confirmed []).1)
      (get_database_state c4w_db ⟨2026, 10, 12⟩ c4w_now SType.confirmed) = true ∧
    sync_channel_with_headers c4w_db ⟨2026, 10, 12⟩ c4w_now SType.confirmed
      (sync_channel_with_headers c4w_db ⟨2026, 10, 12⟩ c4w_now SType.confirmed []).1 =
      ((sync_channel_with_headers c4w_db ⟨2026, 10, 12⟩ c4w_now SType.confirmed []).1, 0) :=
  reconciliation_idempotent c4w_db ⟨2026, 10, 12⟩ c4w_now SType.confirmed []
    (by decide) (by decide) (by decide) (by decide) (by decide)
